import Mathlib

/-!
Verification development for the SVG-to-scene-graph parser
(`src/tool/parseSVG.ts` of the zrender repository).

The source file is shallowly embedded below.  JavaScript numbers are
modelled as `JSNum` (an exact rational, `NaN`, or a signed infinity);
dynamically typed values that can be either a number or a string (the
text cursor) are modelled as `JSVal`.  JavaScript objects used as string
maps are modelled as association lists with write-over semantics that
preserve insertion order, mirroring JS object key order.  A thrown
exception (e.g. a property access on `null`/`undefined`) is modelled by
`Option`: `none` means the parse aborted with an error and produced no
output.

External collaborators of the file (the affine matrix primitives, text
measurement, trigonometry and JS double-to-string formatting) are not
part of the repository source; they are modelled from the spec and, for
the genuinely environment-dependent ones, kept abstract as fields of a
`JSEnv` parameter.
-/

set_option maxRecDepth 40000

namespace ParseSVG

/-! ### JavaScript numbers -/

/-- A JavaScript number: an exact rational, `NaN`, or a signed infinity.
(The source only ever produces values that are exactly representable as
decimals, so rationals model the double arithmetic of the parsed inputs
exactly; `NaN` and the infinities are kept explicit.) -/
inductive JSNum where
  | num (q : ℚ)
  | nan
  | inf (pos : Bool)
deriving DecidableEq, Repr

namespace JSNum

/-- JavaScript `+` on numbers. -/
def add : JSNum → JSNum → JSNum
  | nan, _ => nan
  | _, nan => nan
  | inf p, inf q => if p = q then inf p else nan
  | inf p, num _ => inf p
  | num _, inf p => inf p
  | num a, num b => num (a + b)

/-- JavaScript unary minus on numbers. -/
def neg : JSNum → JSNum
  | nan => nan
  | inf p => inf (!p)
  | num a => num (-a)

/-- JavaScript `*` on numbers. -/
def mul : JSNum → JSNum → JSNum
  | nan, _ => nan
  | _, nan => nan
  | inf p, inf q => inf (p == q)
  | inf p, num b => if b = 0 then nan else inf (p == decide (0 < b))
  | num a, inf q => if a = 0 then nan else inf (q == decide (0 < a))
  | num a, num b => num (a * b)

/-- JavaScript `/` on numbers (division by zero gives a signed infinity,
`0/0` gives `NaN`). -/
def div : JSNum → JSNum → JSNum
  | nan, _ => nan
  | _, nan => nan
  | inf _, inf _ => nan
  | inf p, num b => if b = 0 then inf p else inf (p == decide (0 < b))
  | num _, inf _ => num 0
  | num a, num b =>
      if b = 0 then (if a = 0 then nan else inf (decide (0 < a)))
      else num (a / b)

/-- JavaScript `Math.min` (`NaN` is contagious). -/
def jsmin : JSNum → JSNum → JSNum
  | nan, _ => nan
  | _, nan => nan
  | inf p, y => if p then y else inf false
  | x, inf p => if p then x else inf false
  | num a, num b => num (min a b)

/-- JavaScript `<` on numbers (comparisons with `NaN` are false). -/
def lt : JSNum → JSNum → Bool
  | nan, _ => false
  | _, nan => false
  | inf p, inf q => !p && q
  | inf p, num _ => !p
  | num _, inf q => q
  | num a, num b => decide (a < b)

/-- JavaScript truthiness of a number (`0` and `NaN` are falsy). -/
def truthy : JSNum → Bool
  | nan => false
  | inf _ => true
  | num a => decide (a ≠ 0)

end JSNum

/-! ### JavaScript dynamically-typed values

The text cursor fields `_textX`/`_textY` start out `undefined` and, due
to an unparsed `dx`/`dy` attribute being added with `+=`, can become
strings, so they are modelled as a full dynamic value. -/

/-- A JavaScript value that is a number, a string, or `undefined`. -/
inductive JSVal where
  | n (x : JSNum)
  | s (t : String)
  | undef
deriving DecidableEq, Repr

namespace JSVal

/-- JavaScript truthiness. -/
def truthy : JSVal → Bool
  | n x => x.truthy
  | s t => decide (t ≠ "")
  | undef => false

end JSVal

/-- JavaScript number-to-string conversion for the infinities and `NaN`;
the finite case is delegated to the abstract formatter `fmt` (JS double
formatting is environment behaviour, not repository code). -/
def jsNumToString (fmt : ℚ → String) : JSNum → String
  | .nan => "NaN"
  | .inf true => "Infinity"
  | .inf false => "-Infinity"
  | .num q => fmt q

/-- JavaScript binary `+`: numeric addition unless either side is a
string, in which case both sides are converted to strings and
concatenated; `undefined` converts to `NaN` (numeric context) or
`"undefined"` (string context). -/
def jsPlus (fmt : ℚ → String) : JSVal → JSVal → JSVal
  | .n a, .n b => .n (a.add b)
  | .n a, .s b => .s (jsNumToString fmt a ++ b)
  | .s a, .n b => .s (a ++ jsNumToString fmt b)
  | .s a, .s b => .s (a ++ b)
  | .undef, .n _ => .n .nan
  | .n _, .undef => .n .nan
  | .undef, .s b => .s ("undefined" ++ b)
  | .s a, .undef => .s (a ++ "undefined")
  | .undef, .undef => .n .nan

/-! ### String utilities (the delimiter mini-grammar)

`DILIMITER_REG = /[\s,]+/` in the source: runs of whitespace and commas
separate tokens.  JS `String.prototype.split` on that regex produces an
empty leading/trailing field when the string starts/ends with a
delimiter run, which the model reproduces. -/

/-- Character class of `DILIMITER_REG`: whitespace or comma. -/
def isDelimChar (c : Char) : Bool := c.isWhitespace || c = ','

/-- Dropping a leading run never lengthens a list. -/
theorem dropWhileLengthLe {α : Type} (p : α → Bool) (l : List α) :
    (l.dropWhile p).length ≤ l.length := by
  induction l with
  | nil => simp [List.dropWhile]
  | cons a t ih =>
      rw [List.dropWhile_cons]
      split
      · exact Nat.le_succ_of_le ih
      · simp

/-- Worker for `splitDelim`, structurally recursive on a fuel bound so
that it evaluates by reduction; each step consumes at least one character,
so `length + 1` fuel never runs out (`splitDelimFuelAdequate` below). -/
def splitDelimAux (fuel : Nat) (s : List Char) (acc : List Char) : List String :=
  match fuel with
  | 0 => [⟨acc.reverse⟩]
  | fuel + 1 =>
      match s with
      | [] => [⟨acc.reverse⟩]
      | c :: cs =>
          if isDelimChar c then
            (⟨acc.reverse⟩ : String) :: splitDelimAux fuel (cs.dropWhile isDelimChar) []
          else
            splitDelimAux fuel cs (c :: acc)

/-- The fuel bound is irrelevant above `length + 1`. -/
theorem splitDelimFuelAdequate (fuel fuel' : Nat) (s acc : List Char)
    (h : s.length < fuel) (h' : s.length < fuel') :
    splitDelimAux fuel s acc = splitDelimAux fuel' s acc := by
  induction fuel generalizing fuel' s acc with
  | zero => omega
  | succ k ih =>
      cases fuel' with
      | zero => omega
      | succ k' =>
          cases s with
          | nil => rfl
          | cons c cs =>
              simp only [splitDelimAux]
              split
              · have hd := dropWhileLengthLe isDelimChar cs
                simp only [List.length_cons] at h h'
                rw [ih k' (cs.dropWhile isDelimChar) [] (by omega) (by omega)]
              · simp only [List.length_cons] at h h'
                rw [ih k' cs (c :: acc) (by omega) (by omega)]

/-- JS `str.split(/[\s,]+/)`. -/
def splitDelim (s : String) : List String := splitDelimAux (s.data.length + 1) s.data []

/-- The `trim` utility of the source (strip whitespace at both ends). -/
def trimChars (s : List Char) : List Char :=
  ((s.dropWhile Char.isWhitespace).reverse.dropWhile Char.isWhitespace).reverse

/-- String version of `trimChars`. -/
def trimStr (s : String) : String := ⟨trimChars s.data⟩

/-- JS `toLowerCase` (character-wise, as a reducible map). -/
def lowerStr (s : String) : String := ⟨s.data.map Char.toLower⟩

/-- Whether `pat` occurs at the head of `s`. -/
def leadsWith : List Char → List Char → Bool
  | [], _ => true
  | _ :: _, [] => false
  | p :: ps, c :: cs => p = c && leadsWith ps cs

/-- Whether `pat` occurs as a contiguous substring of `s`. -/
def containsSub (pat : List Char) : List Char → Bool
  | [] => leadsWith pat []
  | c :: cs => leadsWith pat (c :: cs) || containsSub pat cs

/-- First index of a character in a list (`none` models JS `indexOf = -1`). -/
def idxOfChar (ch : Char) : List Char → Option Nat
  | [] => none
  | c :: cs => if c = ch then some 0 else (idxOfChar ch cs).map (· + 1)

/-- JS `str[i]`: the `i`-th character as a one-character string, or
`undefined` past the end. -/
def charAt (s : String) (i : Nat) : Option String :=
  (s.data.get? i).map fun c => (⟨[c]⟩ : String)

/-! ### JS numeric string parsing (`parseFloat`, `parseInt`, `Number`) -/

/-- Numeric value of a decimal digit. -/
def digitVal (c : Char) : Nat := c.toNat - '0'.toNat

/-- Value of a list of decimal digits. -/
def digitsToNat (ds : List Char) : Nat := ds.foldl (fun a c => a * 10 + digitVal c) 0

/-- Split off a leading run of decimal digits. -/
def takeDigits (s : List Char) : List Char × List Char :=
  (s.takeWhile Char.isDigit, s.dropWhile Char.isDigit)

/-- Parse an optional exponent part `e`/`E` with optional sign; the
exponent is only consumed when at least one digit follows. -/
def parseExpPart (s : List Char) : ℤ × List Char :=
  match s with
  | 'e' :: rest => parseExpDigits rest s
  | 'E' :: rest => parseExpDigits rest s
  | _ => (0, s)
where
  parseExpDigits (rest orig : List Char) : ℤ × List Char :=
    let (sign, r2) : ℤ × List Char :=
      match rest with
      | '+' :: t => (1, t)
      | '-' :: t => (-1, t)
      | _ => (1, rest)
    let ds := r2.takeWhile Char.isDigit
    if ds.isEmpty then (0, orig)
    else (sign * (digitsToNat ds : ℤ), r2.dropWhile Char.isDigit)

/-- Parse an unsigned decimal literal `digits[.digits][exponent]` at the
head of the list, returning its exact value and the rest; fails when
there is no digit before or after the point. -/
def floatCoreParse (s : List Char) : Option (ℚ × List Char) :=
  let (intDs, r1) := takeDigits s
  let (fracDs, r2) :=
    match r1 with
    | '.' :: t => takeDigits t
    | _ => ([], r1)
  if intDs.isEmpty && fracDs.isEmpty then none
  else
    let mant : ℚ := (digitsToNat (intDs ++ fracDs) : ℚ) / ((10 : ℚ) ^ fracDs.length)
    let (e, r3) := parseExpPart r2
    some (mant * (10 : ℚ) ^ e, r3)

/-- JS `parseFloat`: skip leading whitespace, optional sign, parse the
longest valid numeric prefix (`Infinity` accepted); `NaN` when no
numeric prefix exists. -/
def jsParseFloat (str : String) : JSNum :=
  let s := str.data.dropWhile Char.isWhitespace
  let (neg, s1) : Bool × List Char :=
    match s with
    | '-' :: t => (true, t)
    | '+' :: t => (false, t)
    | _ => (false, s)
  if leadsWith "Infinity".data s1 then .inf (!neg)
  else
    match floatCoreParse s1 with
    | some (q, _) => .num (if neg then -q else q)
    | none => .nan

/-- JS `parseFloat` applied to a possibly-`undefined` argument
(`parseFloat(undefined)` is `NaN`). -/
def jsParseFloatOpt : Option String → JSNum
  | some s => jsParseFloat s
  | none => .nan

/-- JS `parseInt(str, 10)`: skip whitespace, optional sign, leading
decimal digits only. -/
def jsParseInt (str : String) : JSNum :=
  let s := str.data.dropWhile Char.isWhitespace
  let (neg, s1) : Bool × List Char :=
    match s with
    | '-' :: t => (true, t)
    | '+' :: t => (false, t)
    | _ => (false, s)
  let ds := s1.takeWhile Char.isDigit
  if ds.isEmpty then .nan
  else .num (if neg then -(digitsToNat ds : ℚ) else (digitsToNat ds : ℚ))

/-- JS `Number(string)` (used for unary `+` coercion): the whole trimmed
string must be a numeric literal; the empty string converts to `0`.
(Hex literals are not modelled; none occur in SVG geometry attributes.) -/
def jsNumberOfString (str : String) : JSNum :=
  let s := trimChars str.data
  if s.isEmpty then .num 0
  else
    let (neg, s1) : Bool × List Char :=
      match s with
      | '-' :: t => (true, t)
      | '+' :: t => (false, t)
      | _ => (false, s)
    if s1 = "Infinity".data then .inf (!neg)
    else
      match floatCoreParse s1 with
      | some (q, rest) => if rest.isEmpty then .num (if neg then -q else q) else .nan
      | none => .nan

/-- JS unary `+` on `getAttribute` results: `+null` is `0`. -/
def coerceAttrNum : Option String → JSNum
  | some s => jsNumberOfString s
  | none => .num 0

/-! ### Association maps with JS object semantics

A JS object used as a string-keyed map: assignment overwrites in place,
a fresh key is appended, and `for..in` iterates in insertion order. -/

/-- First value stored under a key (`none` models `undefined`). -/
def lookupKey {α : Type} : List (String × α) → String → Option α
  | [], _ => none
  | (k', v) :: r, k => if k' = k then some v else lookupKey r k

/-- JS assignment `m[k] = v`: overwrite in place or append. -/
def setKey {α : Type} : List (String × α) → String → α → List (String × α)
  | [], k, v => [(k, v)]
  | (k', v') :: r, k, v =>
      if k' = k then (k, v) :: r else (k', v') :: setKey r k v

/-- The `extend` utility of the source (`Object.assign`-like): copy every
entry of `src` into `tgt`, overwriting. -/
def extendMap {α : Type} (tgt : List (String × α)) (src : List (String × α)) :
    List (String × α) :=
  src.foldl (fun m kv => setKey m kv.1 kv.2) tgt

/-- The `defaults` utility of the source: copy entries of `src` whose key
is not yet present in `tgt`. -/
def defaultsMap {α : Type} (tgt : List (String × α)) (src : List (String × α)) :
    List (String × α) :=
  src.foldl (fun m kv => if (lookupKey m kv.1).isSome then m else setKey m kv.1 kv.2) tgt

/-! ### The document model -/

/-- A DOM node as the parser sees it: an element (nodeType 1) with its
attribute map and ordered children, a text node (nodeType 3), or any
other node kind (comment 8, doctype 10, ...) carrying its `nodeName` and
`nodeType`. -/
inductive XMLNode where
  | element (name : String) (attrs : List (String × String)) (children : List XMLNode)
  | textNode (content : String)
  | misc (name : String) (ntype : Nat)
deriving Repr

namespace XMLNode

/-- DOM `nodeName` (text nodes report `#text`). -/
def nodeName : XMLNode → String
  | element n _ _ => n
  | textNode _ => "#text"
  | misc n _ => n

/-- DOM `nodeType`. -/
def nodeType : XMLNode → Nat
  | element _ _ _ => 1
  | textNode _ => 3
  | misc _ t => t

/-- DOM `getAttribute` (non-elements have no attributes). -/
def getAttr : XMLNode → String → Option String
  | element _ attrs _, k => lookupKey attrs k
  | _, _ => none

/-- Children list (`firstChild`/`nextSibling` chain). -/
def childrenList : XMLNode → List XMLNode
  | element _ _ cs => cs
  | _ => []

end XMLNode

mutual
/-- Number of nodes of a subtree (structural; used as the fuel bound for
the recursions over the document tree — it dominates the tree depth). -/
def nodeSize : XMLNode → Nat
  | .element _ _ cs => 1 + nodeSizeList cs
  | .textNode _ => 1
  | .misc _ _ => 1
/-- Total node count of a forest. -/
def nodeSizeList : List XMLNode → Nat
  | [] => 0
  | c :: rest => nodeSize c + nodeSizeList rest
end

/-- Worker for `textContentOf`, structurally recursive on a fuel bound
(one unit of fuel per tree level; `nodeSize` dominates the depth, so the
fuel below never runs out). -/
def textContentFuel (fuel : Nat) (node : XMLNode) : String :=
  match fuel with
  | 0 => ""
  | fuel + 1 =>
      match node with
      | .textNode c => c
      | .element _ _ cs => cs.foldl (fun acc c => acc ++ textContentFuel fuel c) ""
      | .misc _ _ => ""

/-- DOM `textContent`: concatenated text of all descendant text nodes. -/
def textContentOf (node : XMLNode) : String := textContentFuel (nodeSize node) node

/-! ### Paints, gradients and the defs registry -/

/-- A color stop of a gradient (offset may be `NaN` for an unparsable
`offset` attribute). -/
structure GradientStop where
  offset : JSNum
  color : String
deriving DecidableEq, Repr

/-- A `LinearGradient` paint object built by the define-mode parser
(`new LinearGradient(x1, y1, x2, y2)` plus the pushed color stops). -/
structure GradientDef where
  x1 : JSNum
  y1 : JSNum
  x2 : JSNum
  y2 : JSNum
  colorStops : List GradientStop
deriving DecidableEq, Repr

/-- The defs registry: id → paint object. -/
def DefsMap : Type := List (String × GradientDef)

instance : DecidableEq DefsMap := by
  unfold DefsMap
  infer_instance

/-- A value stored in a node's `Style` object: the source assigns strings,
parsed numbers, resolved paints (a gradient object or `undefined`), dash
arrays, booleans, and in one place `null` (a missing `xlink:href`). -/
inductive StyleVal where
  | str (s : String)
  | num (x : JSNum)
  | paint (g : Option GradientDef)
  | dash (l : List JSNum)
  | bool (b : Bool)
  | undefV
deriving DecidableEq, Repr

/-! ### `getPaint` and `urlRegex`

`urlRegex = /url\(\s*#(.*?)\)/`.  `scanUrlCapture` reproduces JS
leftmost-match semantics: a match attempt is made at every position and
the lazy group captures up to the first `)`; `.` does not match line
terminators. -/

/-- Characters the lazy group `(.*?)` can match (JS `.` excludes line
terminators). -/
def isUrlBodyChar (c : Char) : Bool := c ≠ ')' && c ≠ '\n' && c ≠ '\r'

/-- Attempt to match `url\(\s*#(.*?)\)` at the head of the list, returning
the captured group. -/
def urlTryHere (s : List Char) : Option (List Char) :=
  if leadsWith "url(".data s then
    let r2 := (s.drop 4).dropWhile Char.isWhitespace
    if r2.headD ' ' = '#' then
      let r3 := r2.tail
      let cap := r3.takeWhile isUrlBodyChar
      if (r3.drop cap.length).headD ' ' = ')' then some cap else none
    else none
  else none

/-- First match of `urlRegex` anywhere in the string (the capture group),
like JS `str.match(urlRegex)`. -/
def scanUrlCapture : List Char → Option (List Char)
  | [] => none
  | c :: cs =>
      match urlTryHere (c :: cs) with
      | some cap => some cap
      | none => scanUrlCapture cs

/-- The `getPaint` function of the source: a falsy `defs` or style value
passes the value through; a `url(#id)` match resolves through the
registry (possibly to `undefined`); anything else passes through. -/
def getPaint (str : String) : Option DefsMap → StyleVal
  | none => .str str
  | some d =>
      if str = "" then .str str
      else
        match scanUrlCapture str.data with
        | some cap => .paint (lookupKey d (trimStr ⟨cap⟩))
        | none => .str str

/-! ### The affine matrix primitives

Modelled from the spec: the external low-level affine matrix library
(`core/matrix`).  A matrix `[m0 m1 m2 m3 m4 m5]` denotes the 2×3 affine
map `[[m0, m2, m4], [m1, m3, m5]]`; `translate`/`scale`/`rotate`
pre-compose the given transform onto the current matrix, which is what
makes the replay-in-reverse of §4.6 leave the leftmost source function
outermost. -/

/-- An affine matrix as a flat record of the six entries. -/
structure Mat where
  m0 : JSNum
  m1 : JSNum
  m2 : JSNum
  m3 : JSNum
  m4 : JSNum
  m5 : JSNum
deriving DecidableEq, Repr

/-- Modelled from the spec: `matrix.create()`, the identity. -/
def matCreate : Mat := ⟨.num 1, .num 0, .num 0, .num 1, .num 0, .num 0⟩

/-- Modelled from the spec: `matrix.translate(m, m, v)` pre-composes a
translation by `v`. -/
def matTranslate (a : Mat) (vx vy : JSNum) : Mat :=
  { a with m4 := a.m4.add vx, m5 := a.m5.add vy }

/-- Modelled from the spec: `matrix.scale(m, m, v)` pre-composes an axis
scale by `v`. -/
def matScale (a : Mat) (vx vy : JSNum) : Mat :=
  ⟨a.m0.mul vx, a.m1.mul vy, a.m2.mul vx, a.m3.mul vy, a.m4.mul vx, a.m5.mul vy⟩

/-- Modelled from the spec: `matrix.rotate(m, m, rad)` pre-composes a
rotation, `ct`/`st` being the cosine and sine of the angle (obtained from
the abstract trigonometry of the environment). -/
def matRotate (a : Mat) (ct st : JSNum) : Mat :=
  ⟨(ct.mul a.m0).add ((st.mul a.m1).neg),
   (st.mul a.m0).add (ct.mul a.m1),
   (ct.mul a.m2).add ((st.mul a.m3).neg),
   (st.mul a.m2).add (ct.mul a.m3),
   (ct.mul a.m4).add ((st.mul a.m5).neg),
   (st.mul a.m4).add (ct.mul a.m5)⟩

/-- Product of two affine matrices (used only to state what the claims
call "the product with the leftmost function applied last"). -/
def matMul (a b : Mat) : Mat :=
  ⟨(a.m0.mul b.m0).add (a.m2.mul b.m1),
   (a.m1.mul b.m0).add (a.m3.mul b.m1),
   (a.m0.mul b.m2).add (a.m2.mul b.m3),
   (a.m1.mul b.m2).add (a.m3.mul b.m3),
   ((a.m0.mul b.m4).add (a.m2.mul b.m5)).add a.m4,
   ((a.m1.mul b.m4).add (a.m3.mul b.m5)).add a.m5⟩

/-- A pure translation matrix (for stating the claims). -/
def matT (vx vy : ℚ) : Mat := ⟨.num 1, .num 0, .num 0, .num 1, .num vx, .num vy⟩

/-- A pure axis-scale matrix (for stating the claims). -/
def matS (vx vy : ℚ) : Mat := ⟨.num vx, .num 0, .num 0, .num vy, .num 0, .num 0⟩

/-! ### `parseTransformAttribute`

`transformRegex = /(translate|scale|rotate|skewX|skewY|matrix)\(([\-\s0-9\.e,]*)\)/g`.
The attribute value first has every comma replaced by a space; the regex
is then replayed over the string collecting `(name, args)` pairs; the
collected pairs are processed in reverse.  Inside the loop the source
splits the argument string into `valueArr` but then reads `value[0]`,
`value[1]`, ... — single characters of the raw argument string. -/

/-- Character class `[\-\s0-9\.e,]` of the argument group. -/
def isArgChar (c : Char) : Bool :=
  c = '-' || c.isWhitespace || c.isDigit || c = '.' || c = 'e' || c = ','

/-- Match one of the six transform-function names at the head. -/
def matchTransformName (s : List Char) : Option (String × List Char) :=
  if leadsWith "translate".data s then some ("translate", s.drop 9)
  else if leadsWith "scale".data s then some ("scale", s.drop 5)
  else if leadsWith "rotate".data s then some ("rotate", s.drop 6)
  else if leadsWith "skewX".data s then some ("skewX", s.drop 5)
  else if leadsWith "skewY".data s then some ("skewY", s.drop 5)
  else if leadsWith "matrix".data s then some ("matrix", s.drop 6)
  else none

/-- Attempt to match `name\(args\)` at the head, returning the two groups
and the rest of the string. -/
def transformTryHere (s : List Char) : Option (String × String × List Char) :=
  match matchTransformName s with
  | none => none
  | some (name, r1) =>
      if r1.headD ' ' = '(' then
        let r2 := r1.tail
        let args := r2.takeWhile isArgChar
        let rest := r2.drop args.length
        if rest.headD ' ' = ')' then some (name, ⟨args⟩, rest.tail) else none
      else none

/-- A matched transform name only shortens the string. -/
theorem matchTransformNameLe (s : List Char) (n : String) (r : List Char)
    (h : matchTransformName s = some (n, r)) : r.length ≤ s.length := by
  unfold matchTransformName at h
  split_ifs at h <;> cases h <;> simp [List.length_drop]

/-- A successful transform-function match consumes at least one character. -/
theorem transformTryHereShrinks (s : List Char) (n a : String) (rest : List Char)
    (h : transformTryHere s = some (n, a, rest)) : rest.length < s.length := by
  unfold transformTryHere at h
  cases hm : matchTransformName s with
  | none => rw [hm] at h; cases h
  | some p =>
      obtain ⟨name, r1⟩ := p
      rw [hm] at h
      have hr1 := matchTransformNameLe s name r1 hm
      simp only at h
      split_ifs at h with h1 h2
      cases h
      have hne1 : r1 ≠ [] := by
        intro he
        rw [he] at h1
        exact absurd h1 (by decide)
      have hne2 : r1.tail.drop ((r1.tail.takeWhile isArgChar).length) ≠ [] := by
        intro he
        rw [he] at h2
        exact absurd h2 (by decide)
      have e1 : r1.tail.length + 1 = r1.length := by
        cases r1 with
        | nil => exact absurd rfl hne1
        | cons a t => simp
      have e2 : (r1.tail.drop ((r1.tail.takeWhile isArgChar).length)).length ≤ r1.tail.length := by
        simp only [List.length_drop]
        omega
      have e3 : (r1.tail.drop ((r1.tail.takeWhile isArgChar).length)).tail.length + 1 =
          (r1.tail.drop ((r1.tail.takeWhile isArgChar).length)).length := by
        cases hc : r1.tail.drop ((r1.tail.takeWhile isArgChar).length) with
        | nil => exact absurd hc hne2
        | cons a t => simp
      simp only [List.length_drop] at e2 e3
      omega

/-- Worker replaying `transformRegex` globally, structurally recursive on
a fuel bound (each step consumes at least one character, see
`transformTryHereShrinks`; `length + 1` fuel never runs out). -/
def scanTransformOpsAux (fuel : Nat) (s : List Char) : List (String × String) :=
  match fuel with
  | 0 => []
  | fuel + 1 =>
      match s with
      | [] => []
      | c :: cs =>
          match transformTryHere (c :: cs) with
          | some (name, args, rest) => (name, args) :: scanTransformOpsAux fuel rest
          | none => scanTransformOpsAux fuel cs

/-- The fuel bound is irrelevant above `length + 1`. -/
theorem scanTransformOpsFuelAdequate (fuel fuel' : Nat) (s : List Char)
    (h : s.length < fuel) (h' : s.length < fuel') :
    scanTransformOpsAux fuel s = scanTransformOpsAux fuel' s := by
  induction fuel generalizing fuel' s with
  | zero => omega
  | succ k ih =>
      cases fuel' with
      | zero => omega
      | succ k' =>
          cases s with
          | nil => rfl
          | cons c cs =>
              cases ht : transformTryHere (c :: cs) with
              | none =>
                  simp only [scanTransformOpsAux, ht]
                  simp only [List.length_cons] at h h'
                  rw [ih k' cs (by omega) (by omega)]
              | some p =>
                  obtain ⟨name, args, rest⟩ := p
                  have hlt := transformTryHereShrinks (c :: cs) name args rest ht
                  simp only [scanTransformOpsAux, ht]
                  simp only [List.length_cons] at h h' hlt
                  rw [ih k' rest (by omega) (by omega)]

/-- Replay `transformRegex` globally over the string, collecting the
`(name, args)` pairs of every match in order (the `transformOps` array of
the source, with the flat `[type, value, ...]` layout folded into pairs). -/
def scanTransformOps (s : List Char) : List (String × String) :=
  scanTransformOpsAux (s.length + 1) s

/-- JS `transform.replace(/,/g, ' ')`. -/
def replaceCommas (s : String) : String :=
  ⟨s.data.map fun c => if c = ',' then ' ' else c⟩

/-- One iteration of the transform loop.  The accumulator is the current
matrix (`null` before the first iteration; `m = m || matrix.create()`
runs before the switch) together with the emitted diagnostics.  Note that
the argument values are read with `value[0]`, `value[1]`, ... — single
characters of the argument string — and that the `switch` has a case for
the literal string `'skew'`, which no scanned name ever equals, so
`skewX`/`skewY` fall through with the matrix untouched and no diagnostic. -/
def applyTransformOp (cosF sinF : JSNum → JSNum) (acc : Option Mat × List String)
    (op : String × String) : Option Mat × List String :=
  let value := op.2
  let m := acc.1.getD matCreate
  if op.1 = "translate" then
    (some (matTranslate m (jsParseFloatOpt (charAt value 0))
      (jsParseFloat ((charAt value 1).getD "0"))), acc.2)
  else if op.1 = "scale" then
    (some (matScale m (jsParseFloatOpt (charAt value 0))
      (jsParseFloatOpt ((charAt value 1).orElse fun _ => charAt value 0))), acc.2)
  else if op.1 = "rotate" then
    let rad := jsParseFloatOpt (charAt value 0)
    (some (matRotate m (cosF rad) (sinF rad)), acc.2)
  else if op.1 = "skew" then
    (some m, acc.2 ++ ["Skew transform is not supported yet"])
  else if op.1 = "matrix" then
    (some ⟨jsParseFloatOpt (charAt value 0), jsParseFloatOpt (charAt value 1),
      jsParseFloatOpt (charAt value 2), jsParseFloatOpt (charAt value 3),
      jsParseFloatOpt (charAt value 4), jsParseFloatOpt (charAt value 5)⟩, acc.2)
  else
    (some m, acc.2)

/-- The loop of `parseTransformAttribute`: the collected pairs are
processed from the last to the first. -/
def composeTransformOps (cosF sinF : JSNum → JSNum) (ops : List (String × String)) :
    Option Mat × List String :=
  ops.reverse.foldl (applyTransformOp cosF sinF) (none, [])

/-- Full processing of a `transform` attribute value: replace commas,
scan the function list, replay in reverse.  Returns the matrix passed to
`setLocalTransform` (`none` when no function matched) and the emitted
diagnostics. -/
def composeTransformAttr (cosF sinF : JSNum → JSNum) (attr : String) :
    Option Mat × List String :=
  composeTransformOps cosF sinF (scanTransformOps (replaceCommas attr).data)

/-! ### The inline-style mini-grammar

`styleRegex = /([^\s:;]+)\s*:\s*([^:;]+)/g`, replayed with `exec` to
collect `key : value` declarations. -/

/-- Character class `[^\s:;]` of the key group. -/
def isStyleKeyChar (c : Char) : Bool := !c.isWhitespace && c ≠ ':' && c ≠ ';'

/-- Character class `[^:;]` of the value group. -/
def isStyleValChar (c : Char) : Bool := c ≠ ':' && c ≠ ';'

/-- Attempt to match `styleRegex` at the head of the list, returning key,
value and the rest.  The value group is greedy; when everything after the
optional whitespace run would leave the value empty, the regex engine
backtracks one whitespace character into the value group. -/
def styleTryHere (s : List Char) : Option (String × String × List Char) :=
  let key := s.takeWhile isStyleKeyChar
  if key.isEmpty then none
  else
    let r1 := (s.drop key.length).dropWhile Char.isWhitespace
    if r1.headD ' ' = ':' then
      let r2 := r1.tail
      let ws2 := r2.takeWhile Char.isWhitespace
      let v := (r2.drop ws2.length).takeWhile isStyleValChar
      if !v.isEmpty then
        some (⟨key⟩, ⟨v⟩, (r2.drop ws2.length).drop v.length)
      else if !ws2.isEmpty then
        some (⟨key⟩, ⟨[ws2.getLastD ' ']⟩, r2.drop ws2.length)
      else none
    else none

/-- A successful style-declaration match consumes at least one character. -/
theorem styleTryHereShrinks (s : List Char) (k v : String) (rest : List Char)
    (h : styleTryHere s = some (k, v, rest)) : rest.length < s.length := by
  unfold styleTryHere at h
  simp only at h
  split_ifs at h with h1 h2 h3 h4
  · cases h
    have hk : (s.takeWhile isStyleKeyChar).length ≠ 0 := by
      intro he
      exact h1 (List.isEmpty_iff.mpr (List.eq_nil_of_length_eq_zero he))
    have hk2 : (s.takeWhile isStyleKeyChar).length ≤ s.length := by
      simpa using (List.takeWhile_sublist _).length_le
    have h5 : ((s.drop (s.takeWhile isStyleKeyChar).length).dropWhile Char.isWhitespace).length
        ≤ s.length - (s.takeWhile isStyleKeyChar).length := by
      have := dropWhileLengthLe Char.isWhitespace (s.drop (s.takeWhile isStyleKeyChar).length)
      simpa [List.length_drop] using this
    simp only [List.length_drop, List.length_tail]
    omega
  · cases h
    have hne : ¬((s.drop (s.takeWhile isStyleKeyChar).length).dropWhile Char.isWhitespace) = [] := by
      intro he
      rw [he] at h2
      exact absurd h2 (by decide)
    have hk : (s.takeWhile isStyleKeyChar).length ≠ 0 := by
      intro he
      exact h1 (List.isEmpty_iff.mpr (List.eq_nil_of_length_eq_zero he))
    have hk2 : (s.takeWhile isStyleKeyChar).length ≤ s.length := by
      simpa using (List.takeWhile_sublist _).length_le
    have h5 : ((s.drop (s.takeWhile isStyleKeyChar).length).dropWhile Char.isWhitespace).length
        ≤ s.length - (s.takeWhile isStyleKeyChar).length := by
      have := dropWhileLengthLe Char.isWhitespace (s.drop (s.takeWhile isStyleKeyChar).length)
      simpa [List.length_drop] using this
    simp only [List.length_drop, List.length_tail]
    omega

/-- Worker replaying `styleRegex`, structurally recursive on a fuel bound
(each step consumes at least one character, see `styleTryHereShrinks`;
`length + 1` fuel never runs out). -/
def scanStyleDeclsAux (fuel : Nat) (s : List Char) : List (String × String) :=
  match fuel with
  | 0 => []
  | fuel + 1 =>
      match s with
      | [] => []
      | c :: cs =>
          match styleTryHere (c :: cs) with
          | some (k, v, rest) => (k, v) :: scanStyleDeclsAux fuel rest
          | none => scanStyleDeclsAux fuel cs

/-- The fuel bound is irrelevant above `length + 1`. -/
theorem scanStyleDeclsFuelAdequate (fuel fuel' : Nat) (s : List Char)
    (h : s.length < fuel) (h' : s.length < fuel') :
    scanStyleDeclsAux fuel s = scanStyleDeclsAux fuel' s := by
  induction fuel generalizing fuel' s with
  | zero => omega
  | succ k ih =>
      cases fuel' with
      | zero => omega
      | succ k' =>
          cases s with
          | nil => rfl
          | cons c cs =>
              cases ht : styleTryHere (c :: cs) with
              | none =>
                  simp only [scanStyleDeclsAux, ht]
                  simp only [List.length_cons] at h h'
                  rw [ih k' cs (by omega) (by omega)]
              | some p =>
                  obtain ⟨k0, v0, rest⟩ := p
                  have hlt := styleTryHereShrinks (c :: cs) k0 v0 rest ht
                  simp only [scanStyleDeclsAux, ht]
                  simp only [List.length_cons] at h h' hlt
                  rw [ih k' rest (by omega) (by omega)]

/-- Replay `styleRegex` over the style text, collecting declarations. -/
def scanStyleDecls (s : List Char) : List (String × String) :=
  scanStyleDeclsAux (s.length + 1) s

/-- The `attributesMap` of the source: the presentation-attribute
allow-list, in the source's key order, mapped to style-property names. -/
def attributesMapL : List (String × String) :=
  [("fill", "fill"),
   ("stroke", "stroke"),
   ("stroke-width", "lineWidth"),
   ("opacity", "opacity"),
   ("fill-opacity", "fillOpacity"),
   ("stroke-opacity", "strokeOpacity"),
   ("stroke-dasharray", "lineDash"),
   ("stroke-dashoffset", "lineDashOffset"),
   ("stroke-linecap", "lineCap"),
   ("stroke-linejoin", "lineJoin"),
   ("stroke-miterlimit", "miterLimit"),
   ("font-family", "fontFamily"),
   ("font-size", "fontSize"),
   ("font-style", "fontStyle"),
   ("font-weight", "fontWeight"),
   ("text-align", "textAlign"),
   ("alignment-baseline", "textBaseline")]

/-- The `parseStyleAttribute` function of the source: scan the `style`
attribute text into a declaration map, then translate allow-listed SVG
property names to style-property names. -/
def parseStyleAttribute (node : XMLNode) : List (String × String) :=
  match node.getAttr "style" with
  | none => []
  | some style =>
      if style = "" then []
      else
        let styleList := (scanStyleDecls style.data).foldl
          (fun m kv => setKey m kv.1 kv.2) []
        attributesMapL.foldl
          (fun res kv =>
            match lookupKey styleList kv.1 with
            | some v => setKey res kv.2 v
            | none => res) []

/-! ### `parsePoints` -/

/-- Worker for the index loop of `parsePoints`, structurally recursive on
a fuel bound (each step consumes at least one token, so `length` fuel
never runs out). -/
def pointsLoopFuel : Nat → List String → List (JSNum × JSNum)
  | _, [] => []
  | 0, _ :: _ => []
  | _ + 1, [x] => [(jsParseFloat x, .nan)]
  | fuel + 1, x :: y :: rest => (jsParseFloat x, jsParseFloat y) :: pointsLoopFuel fuel rest

/-- The index loop of `parsePoints`: tokens are consumed two at a time;
at an odd tail, `list[i + 1]` is `undefined` and `parseFloat(undefined)`
is `NaN`. -/
def pointsLoop (l : List String) : List (JSNum × JSNum) := pointsLoopFuel l.length l

/-- The `parsePoints` function of the source. -/
def parsePoints (pointsString : String) : List (JSNum × JSNum) :=
  pointsLoop (splitDelim (trimStr pointsString))

/-! ### Gradient color stops and the linear-gradient builder -/

/-- The `_parseGradientColorStops` loop.  On an element child with no
`offset` attribute the source calls `offsetStr.indexOf('%')` on `null`,
which throws; this is the `none` result. -/
def parseGradientColorStops : List XMLNode → Option (List GradientStop)
  | [] => some []
  | stop_ :: rest =>
      if stop_.nodeType = 1 then
        match stop_.getAttr "offset" with
        | none => none
        | some offsetStr =>
            let offset : JSNum :=
              if (match idxOfChar '%' offsetStr.data with
                  | some i => decide (0 < i)
                  | none => false) then
                (jsParseInt offsetStr).div (.num 100)
              else if offsetStr ≠ "" then jsParseFloat offsetStr
              else .num 0
            let stopColor :=
              match stop_.getAttr "stop-color" with
              | some c => if c ≠ "" then c else "#000000"
              | none => "#000000"
            (parseGradientColorStops rest).map
              (fun l => (⟨offset, stopColor⟩ : GradientStop) :: l)
      else parseGradientColorStops rest

/-- The `'lineargradient'` define-parser: coordinates default to
`(0, 0, 10, 0)` via `parseInt(attr || default, 10)`. -/
def parseLinearGradientDef (node : XMLNode) : Option GradientDef :=
  let attrOrD : String → String → String := fun k d =>
    match node.getAttr k with
    | some v => if v ≠ "" then v else d
    | none => d
  let x1 := jsParseInt (attrOrD "x1" "0")
  let y1 := jsParseInt (attrOrD "y1" "0")
  let x2 := jsParseInt (attrOrD "x2" "10")
  let y2 := jsParseInt (attrOrD "y2" "0")
  (parseGradientColorStops node.childrenList).map
    (fun stops => ⟨x1, y1, x2, y2, stops⟩)

/-! ### Scene-graph elements

The external node classes (Group, Rect, Circle, ..., Text, Image, Path)
are modelled as one record carrying exactly the fields the parser reads
or writes: the `type` tag, the hidden `__inheritedStyle` map, the
`Style` object, the local transform, position/scale, shape geometry,
the sticky has-stroke marker, the root clip rect and the children. -/

/-- A scene node under construction. -/
structure ZRElement where
  kind : String
  inheritedStyle : Option (List (String × String))
  styleMap : List (String × StyleVal)
  localTransform : Option Mat
  position : JSVal × JSVal
  scale : Option (JSNum × JSNum)
  shape : List (String × JSNum)
  points : List (JSNum × JSNum)
  pathData : Option String
  strokeFlag : Bool
  textStrokeFlag : Bool
  clipPath : Option (List (String × JSNum))
  children : List ZRElement

/-- A freshly constructed node of the given type, before any attribute
processing. -/
def baseEl (kind : String) : ZRElement :=
  { kind := kind, inheritedStyle := none, styleMap := [], localTransform := none,
    position := (.n (.num 0), .n (.num 0)), scale := none, shape := [], points := [],
    pathData := none, strokeFlag := false, textStrokeFlag := false, clipPath := none,
    children := [] }

/-- The ambient JavaScript environment: double formatting for string
conversion, trigonometry for `rotate`, and the text measurement behind
`getBoundingRect` — all external to the repository. -/
structure JSEnv where
  fmt : ℚ → String
  cosF : JSNum → JSNum
  sinF : JSNum → JSNum
  measureWidth : ZRElement → ℚ

/-- The `inheritStyle` function of the source: seed the child's
`__inheritedStyle` with the parent's entries (`defaults`: never
overwriting the child's own). -/
def inheritStyle (parent : Option ZRElement) (child : ZRElement) : ZRElement :=
  match parent with
  | none => child
  | some p =>
      match p.inheritedStyle with
      | none => child
      | some ps =>
          { child with inheritedStyle := some (defaultsMap (child.inheritedStyle.getD []) ps) }

/-- The `parseTransformAttribute` function of the source applied to an
element: only a present, non-empty attribute is parsed, and
`setLocalTransform(null)` (no function matched) leaves the node
untouched. -/
def applyTransformAttrToEl (env : JSEnv) (node : XMLNode) (el : ZRElement) : ZRElement :=
  match node.getAttr "transform" with
  | some t =>
      if t ≠ "" then
        match (composeTransformAttr env.cosF env.sinF t).1 with
        | some m => { el with localTransform := some m }
        | none => el
      else el
  | none => el

/-- The presentation-attribute loop of `parseAttributes`: for each
allow-listed attribute present on the element, write its value over the
merged style record, in `attributesMap` order. -/
def applyPresentationAttrs (node : XMLNode) (zr : List (String × String)) :
    List (String × String) :=
  attributesMapL.foldl
    (fun z kv =>
      match node.getAttr kv.1 with
      | some v => setKey z kv.2 v
      | none => z) zr

/-- The layering of the merged style record in `parseAttributes`: start
from the inherited record, `extend` with the inline `style` declarations,
then (unless `onlyInlineStyle`) write the presentation attributes over it. -/
def resolveZrStyle (node : XMLNode) (inherited : List (String × String))
    (onlyInlineStyle : Bool) : List (String × String) :=
  if node.nodeType = 1 then
    let z1 := extendMap inherited (parseStyleAttribute node)
    if !onlyInlineStyle then applyPresentationAttrs node z1 else z1
  else inherited

/-- The numeric style properties parsed with `parseFloat`. -/
def numericStyleProps : List String :=
  ["lineWidth", "opacity", "fillOpacity", "strokeOpacity", "miterLimit", "fontSize"]

/-- The string style properties copied verbatim. -/
def stringStyleProps : List String :=
  ["lineDashOffset", "lineCap", "lineJoin", "fontWeight", "fontFamily", "fontStyle",
   "textAlign", "textBaseline"]

/-- The `parseAttributes` function of the source. -/
def parseAttributes (env : JSEnv) (node : XMLNode) (el0 : ZRElement)
    (defs : Option DefsMap) (onlyInlineStyle : Bool) : ZRElement :=
  let isTextEl := el0.kind = "text"
  let el1 := if node.nodeType = 1 then applyTransformAttrToEl env node el0 else el0
  let zr1 := resolveZrStyle node (el0.inheritedStyle.getD []) onlyInlineStyle
  let elFillProp := if isTextEl then "textFill" else "fill"
  let elStrokeProp := if isTextEl then "textStroke" else "stroke"
  let st1 :=
    match lookupKey zr1 "fill" with
    | some v => setKey el1.styleMap elFillProp (getPaint v defs)
    | none => el1.styleMap
  let st2 :=
    match lookupKey zr1 "stroke" with
    | some v => setKey st1 elStrokeProp (getPaint v defs)
    | none => st1
  let st3 := numericStyleProps.foldl
    (fun st propName =>
      let elPropName := if propName = "lineWidth" && isTextEl then "textStrokeWidth" else propName
      match lookupKey zr1 propName with
      | some v => setKey st elPropName (.num (jsParseFloat v))
      | none => st) st2
  let zr2 :=
    match lookupKey zr1 "textBaseline" with
    | none => setKey zr1 "textBaseline" "alphabetic"
    | some v => if v = "" || v = "auto" then setKey zr1 "textBaseline" "alphabetic" else zr1
  let zr3 := if lookupKey zr2 "textBaseline" = some "alphabetic"
    then setKey zr2 "textBaseline" "bottom" else zr2
  let zr4 := if lookupKey zr3 "textAlign" = some "start"
    then setKey zr3 "textAlign" "left" else zr3
  let zr5 := if lookupKey zr4 "textAlign" = some "end"
    then setKey zr4 "textAlign" "right" else zr4
  let st4 := stringStyleProps.foldl
    (fun st propName =>
      match lookupKey zr5 propName with
      | some v => setKey st propName (.str v)
      | none => st) st3
  let st5 :=
    match lookupKey zr5 "lineDash" with
    | some v =>
        if v ≠ "" then
          setKey st4 "lineDash" (.dash ((splitDelim (trimStr v)).map jsParseFloat))
        else st4
    | none => st4
  let strokeTruthy :=
    match lookupKey st5 elStrokeProp with
    | some (.str s) => s ≠ "" && s ≠ "none"
    | some (.paint g) => g.isSome
    | some (.num x) => x.truthy
    | some (.dash _) => true
    | some (.bool b) => b
    | some .undefV => false
    | none => false
  { el1 with
    styleMap := st5,
    inheritedStyle := some zr5,
    strokeFlag := el1.strokeFlag || (strokeTruthy && !isTextEl),
    textStrokeFlag := el1.textStrokeFlag || (strokeTruthy && isTextEl) }

/-! ### The per-parse state and the node parsers -/

/-- The private fields of an `SVGParser` instance. -/
structure PState where
  defs : DefsMap
  isDefine : Bool
  isText : Bool
  textX : JSVal
  textY : JSVal

/-- A fresh `new SVGParser()`: empty registry, cleared flags, undefined
cursor. -/
def freshPState : PState :=
  { defs := [], isDefine := false, isText := false, textX := .undef, textY := .undef }

/-- JS `getAttribute(k) || d` (absent and empty both fall back). -/
def attrOrDefault (node : XMLNode) (k d : String) : String :=
  match node.getAttr k with
  | some v => if v ≠ "" then v else d
  | none => d

/-- Shape geometry read `parseFloat(getAttribute(k) || '0')`. -/
def geoAttr (node : XMLNode) (k : String) : JSNum :=
  jsParseFloat (attrOrDefault node k "0")

/-- JS `getAttribute(k) || 0`: the raw dynamic value used for the `tspan`
`dx`/`dy` (a string when present and non-empty, the number `0`
otherwise). -/
def attrOrZeroVal (node : XMLNode) (k : String) : JSVal :=
  match node.getAttr k with
  | some v => if v ≠ "" then .s v else .n (.num 0)
  | none => .n (.num 0)

/-- JS `parseFloat` applied to a dynamic value (`parseFloat` stringifies
a numeric argument; round-tripping a finite number is the identity). -/
def jsParseFloatVal : JSVal → JSNum
  | .s t => jsParseFloat t
  | .n x => x
  | .undef => .nan

/-- The `nodeParsers` dispatch table: returns the constructed element and
the updated parser state, or `none` when there is no parser for `name`. -/
def runNodeParser (env : JSEnv) (name : String) (node : XMLNode)
    (parentG : Option ZRElement) (st : PState) : Option (ZRElement × PState) :=
  if name = "g" then
    some (parseAttributes env node (inheritStyle parentG (baseEl "group")) (some st.defs) false, st)
  else if name = "rect" then
    let rect := parseAttributes env node (inheritStyle parentG (baseEl "rect")) (some st.defs) false
    some ({ rect with shape :=
      [("x", geoAttr node "x"), ("y", geoAttr node "y"),
       ("width", geoAttr node "width"), ("height", geoAttr node "height")] }, st)
  else if name = "circle" then
    let circle := parseAttributes env node (inheritStyle parentG (baseEl "circle")) (some st.defs) false
    some ({ circle with shape :=
      [("cx", geoAttr node "cx"), ("cy", geoAttr node "cy"), ("r", geoAttr node "r")] }, st)
  else if name = "line" then
    let line := parseAttributes env node (inheritStyle parentG (baseEl "line")) (some st.defs) false
    some ({ line with shape :=
      [("x1", geoAttr node "x1"), ("y1", geoAttr node "y1"),
       ("x2", geoAttr node "x2"), ("y2", geoAttr node "y2")] }, st)
  else if name = "ellipse" then
    let ellipse := parseAttributes env node (inheritStyle parentG (baseEl "ellipse")) (some st.defs) false
    some ({ ellipse with shape :=
      [("cx", geoAttr node "cx"), ("cy", geoAttr node "cy"),
       ("rx", geoAttr node "rx"), ("ry", geoAttr node "ry")] }, st)
  else if name = "polygon" then
    let pts :=
      match node.getAttr "points" with
      | some p => if p ≠ "" then parsePoints p else []
      | none => []
    some (parseAttributes env node
      (inheritStyle parentG { baseEl "polygon" with points := pts }) (some st.defs) false, st)
  else if name = "polyline" then
    let _path := parseAttributes env node (inheritStyle parentG (baseEl "path")) (some st.defs) false
    let pts :=
      match node.getAttr "points" with
      | some p => if p ≠ "" then parsePoints p else []
      | none => []
    some ({ baseEl "polyline" with points := pts }, st)
  else if name = "image" then
    let img := parseAttributes env node (inheritStyle parentG (baseEl "image")) (some st.defs) false
    let sm := setKey img.styleMap "image"
      (match node.getAttr "xlink:href" with | some s => .str s | none => .undefV)
    let sm := setKey sm "x" (.num (coerceAttrNum (node.getAttr "x")))
    let sm := setKey sm "y" (.num (coerceAttrNum (node.getAttr "y")))
    let sm := setKey sm "width" (.num (coerceAttrNum (node.getAttr "width")))
    let sm := setKey sm "height" (.num (coerceAttrNum (node.getAttr "height")))
    some ({ img with styleMap := sm }, st)
  else if name = "text" then
    let x := attrOrDefault node "x" "0"
    let y := attrOrDefault node "y" "0"
    let dx := attrOrDefault node "dx" "0"
    let dy := attrOrDefault node "dy" "0"
    let st1 := { st with
      textX := .n ((jsParseFloat x).add (jsParseFloat dx)),
      textY := .n ((jsParseFloat y).add (jsParseFloat dy)) }
    some (parseAttributes env node (inheritStyle parentG (baseEl "group")) (some st.defs) false, st1)
  else if name = "tspan" then
    let st1 :=
      match node.getAttr "x" with
      | some xv => { st with textX := .n (jsParseFloat xv) }
      | none => st
    let st2 :=
      match node.getAttr "y" with
      | some yv => { st1 with textY := .n (jsParseFloat yv) }
      | none => st1
    let dxv := attrOrZeroVal node "dx"
    let dyv := attrOrZeroVal node "dy"
    let g := parseAttributes env node (inheritStyle parentG (baseEl "group")) (some st.defs) false
    some (g, { st2 with
      textX := jsPlus env.fmt st2.textX dxv,
      textY := jsPlus env.fmt st2.textY dyv })
  else if name = "path" then
    let d := attrOrDefault node "d" ""
    some (parseAttributes env node
      (inheritStyle parentG { baseEl "path" with pathData := some d }) (some st.defs) false, st)
  else none

/-- The small-font clamp of `_parseText`: a truthy font size below 9 is
raised to 9 and compensated by a non-uniform scale `fontSize / 9`. -/
def clampTinyFont (text1 : ZRElement) : ZRElement :=
  match lookupKey text1.styleMap "fontSize" with
  | some (.num fs) =>
      if fs.truthy && fs.lt (.num 9) then
        let sc := text1.scale.getD (.num 1, .num 1)
        { text1 with
          styleMap := setKey text1.styleMap "fontSize" (.num (.num 9)),
          scale := some (sc.1.mul (fs.div (.num 9)), sc.2.mul (fs.div (.num 9))) }
      else text1
  | _ => text1

/-- The `_parseText` method: build a `Text` node at the current cursor,
resolve its style, clamp tiny font sizes with compensating scale, advance
the cursor by the measured width, and add it to the parent group (a
missing parent group makes the `add` throw). -/
def parseTextRun (env : JSEnv) (node : XMLNode) (parentG : Option ZRElement)
    (st : PState) : Option (ZRElement × PState) :=
  let st1 :=
    if node.nodeType = 1 then
      { st with
        textX := jsPlus env.fmt st.textX (.n (jsParseFloatVal (attrOrZeroVal node "dx"))),
        textY := jsPlus env.fmt st.textY (.n (jsParseFloatVal (attrOrZeroVal node "dy"))) }
    else st
  let posX := if st1.textX.truthy then st1.textX else .n (.num 0)
  let posY := if st1.textY.truthy then st1.textY else .n (.num 0)
  let text0 : ZRElement :=
    { baseEl "text" with
      styleMap := [("text", .str (textContentOf node)), ("transformText", .bool true)],
      position := (posX, posY) }
  let text1 := parseAttributes env node (inheritStyle parentG text0) (some st1.defs) false
  let text2 := clampTinyFont text1
  let w := env.measureWidth text2
  let st2 := { st1 with textX := jsPlus env.fmt st1.textX (.n (.num w)) }
  match parentG with
  | some _ => some (text2, st2)
  | none => none

/-! ### The document walker (`_parseNode`) -/

/-- One iteration of the child loop of `_parseNode`, parameterized by the
recursive call used for element children: element children recurse, text
children are emitted as text runs only while text mode is on, everything
else is skipped. -/
def parseChildStep
    (recur : XMLNode → Option ZRElement → PState → Option (Option ZRElement × PState))
    (env : JSEnv) (c : XMLNode) (elOpt : Option ZRElement) (stc : PState) :
    Option (Option ZRElement × PState) :=
  if c.nodeType = 1 then recur c elOpt stc
  else if c.nodeType = 3 && stc.isText then
    match parseTextRun env c elOpt stc with
    | some (t, st') => some (some t, st')
    | none => none
  else some (none, stc)

/-- Mode toggling on entering a node, by node name. -/
def modeEnter (nodeName : String) (st : PState) : PState :=
  if nodeName = "defs" then { st with isDefine := true }
  else if nodeName = "text" then { st with isText := true }
  else st

/-- Mode toggling on leaving a node, by node name. -/
def modeExit (nodeName : String) (st : PState) : PState :=
  if nodeName = "defs" then { st with isDefine := false }
  else if nodeName = "text" then { st with isText := false }
  else st

/-- The dispatch step of `_parseNode`: in define mode, run the
define-parser (registering the built paint under a non-empty id); out of
define mode, run the node-parser and add the element to the parent group
(a throw — `none` — when the parent is `undefined`). -/
def parseNodeMain (env : JSEnv) (nodeName : String) (node : XMLNode)
    (parentG : Option ZRElement) (st1 : PState) : Option (Option ZRElement × PState) :=
  if st1.isDefine then
    if nodeName = "lineargradient" then
      match parseLinearGradientDef node with
      | none => none
      | some d =>
          some (none,
            match node.getAttr "id" with
            | some id => if id ≠ "" then { st1 with defs := setKey st1.defs id d } else st1
            | none => st1)
    else some (none, st1)
  else
    match runNodeParser env nodeName node parentG st1 with
    | some (el, st2) =>
        match parentG with
        | some _ => some (some el, st2)
        | none => none
    | none => some (none, st1)

/-- The child loop of `_parseNode` over a children list, threading the
accumulated children and state. -/
def parseKids
    (recur : XMLNode → Option ZRElement → PState → Option (Option ZRElement × PState))
    (env : JSEnv) (cs : List XMLNode) (elOpt : Option ZRElement) (st2 : PState) :
    Option (List ZRElement × PState) :=
  cs.foldl
    (fun acc c =>
      match acc with
      | none => none
      | some (kids, stc) =>
          match parseChildStep recur env c elOpt stc with
          | none => none
          | some (elO, st') => some (kids ++ elO.toList, st'))
    (some ([], st2))

/-- The tail of `_parseNode`: attach the collected children to the built
element and toggle the mode off. -/
def parseNodeFinish (nodeName : String) (elOpt : Option ZRElement)
    (res : Option (List ZRElement × PState)) : Option (Option ZRElement × PState) :=
  match res with
  | none => none
  | some (kids, st3) =>
      some (elOpt.map (fun e => { e with children := e.children ++ kids }),
        modeExit nodeName st3)

/-- Worker for the `_parseNode` recursion, structurally recursive on a
fuel bound (one unit of fuel per tree level; `nodeSize` dominates the
depth, so the fuel used by the entry point `parseNodeF` never runs out).
The method: toggle the define/text mode on entry by node name
(`modeEnter`), dispatch (`parseNodeMain`), loop over the children
(`parseKids`), attach them and toggle the mode off (`parseNodeFinish`). -/
def parseNodeFuel (fuel : Nat) (env : JSEnv) (node : XMLNode)
    (parentG : Option ZRElement) (st : PState) : Option (Option ZRElement × PState) :=
  match fuel with
  | 0 => none
  | fuel + 1 =>
      let nodeName := lowerStr node.nodeName
      match parseNodeMain env nodeName node parentG (modeEnter nodeName st) with
      | none => none
      | some (elOpt, st2) =>
          parseNodeFinish nodeName elOpt
            (parseKids (parseNodeFuel fuel env) env node.childrenList elOpt st2)

/-- The `_parseNode` method (entry point: the fuel is instantiated with a
bound that dominates the tree depth). -/
def parseNodeF (env : JSEnv) (node : XMLNode) (parentG : Option ZRElement)
    (st : PState) : Option (Option ZRElement × PState) :=
  parseNodeFuel (nodeSize node) env node parentG st

/-! ### Root detection and the top-level `parse` -/

/-- The sibling scan of `parseXML`: keep following `nextSibling` until a
node whose lower-cased `nodeName` is `svg` and whose `nodeType` is 1
(element) is found.  Walking past the last sibling dereferences `null`
(the thrown `TypeError` is the `none` result: the operation fails and
yields nothing). -/
def findSvgNode : List XMLNode → Option XMLNode
  | [] => none
  | n :: rest =>
      if lowerStr n.nodeName = "svg" && n.nodeType = 1 then some n
      else findSvgNode rest

/-- The recognized options of `SVGParser.parse`. -/
structure SVGParserOpt where
  width : Option ℚ := none
  height : Option ℚ := none
  ignoreViewBox : Bool := false
  ignoreRootClip : Bool := false

/-- The result record of `SVGParser.parse`.  `width`/`height` are `none`
when unresolved (`null` in the source). -/
structure SVGResult where
  root : ZRElement
  width : Option JSNum
  height : Option JSNum
  viewBoxRect : Option (JSNum × JSNum × JSNum × JSNum)
  viewBoxTransform : Option ((JSNum × JSNum) × (JSNum × JSNum))

/-- Viewport resolution: `parseFloat(svg.getAttribute(k) || opt.k)`, then
`isNaN(v) && (v = null)`. -/
def resolveViewport (attr : Option String) (fallback : Option ℚ) : Option JSNum :=
  let raw : JSNum :=
    match attr with
    | some s =>
        if s ≠ "" then jsParseFloat s
        else (match fallback with | some q => .num q | none => .nan)
    | none => match fallback with | some q => .num q | none => .nan
  match raw with
  | .nan => none
  | v => some v

/-- The `makeViewBoxTransform` function of the source. -/
def makeViewBoxTransform (x y w h : JSNum) (width height : JSNum) :
    (JSNum × JSNum) × (JSNum × JSNum) :=
  let scaleX := width.div w
  let scaleY := height.div h
  let scale := scaleX.jsmin scaleY
  ((scale, scale),
   (((x.add (w.div (.num 2))).mul scale).neg.add (width.div (.num 2)),
    ((y.add (h.div (.num 2))).mul scale).neg.add (height.div (.num 2))))

/-- A viewBox token: `parseFloat(arr[i] || 0)`. -/
def vbTok (o : Option String) : JSNum :=
  match o with
  | some s => if s ≠ "" then jsParseFloat s else .num 0
  | none => .num 0

/-- The top-level child loop of `parse`: every child of the `svg` element
goes through `_parseNode` with the root group as parent. -/
def parseTopChildren (env : JSEnv) (ns : List XMLNode) (root : ZRElement)
    (st : PState) : Option (ZRElement × PState) :=
  match ns with
  | [] => some (root, st)
  | c :: rest =>
      match parseNodeF env c (some root) st with
      | none => none
      | some (elOpt, st') =>
          parseTopChildren env rest { root with children := root.children ++ elOpt.toList } st'

/-- The `SVGParser.parse` method, threading an explicit parser state
(`st0` are the instance fields at entry).  The input document is the
sibling chain scanned by `parseXML`; a `none` result models the parse
aborting with a thrown error and producing no output. -/
def parserParse (env : JSEnv) (st0 : PState) (doc : List XMLNode)
    (opt : SVGParserOpt) : Option SVGResult :=
  match findSvgNode doc with
  | none => none
  | some svg =>
      let viewBox := (svg.getAttr "viewBox").getD ""
      let width := resolveViewport (svg.getAttr "width") opt.width
      let height := resolveViewport (svg.getAttr "height") opt.height
      let root1 := parseAttributes env svg (baseEl "group") none true
      match parseTopChildren env svg.childrenList root1 st0 with
      | none => none
      | some (root2, _) =>
          let viewBoxRect : Option (JSNum × JSNum × JSNum × JSNum) :=
            if viewBox ≠ "" then
              let arr := splitDelim (trimStr viewBox)
              if 4 ≤ arr.length then
                some (vbTok (arr.get? 0), vbTok (arr.get? 1),
                      jsParseFloatOpt (arr.get? 2), jsParseFloatOpt (arr.get? 3))
              else none
            else none
          let vbt :=
            match viewBoxRect, width, height with
            | some (x, y, w, h), some wv, some hv => some (makeViewBoxTransform x y w h wv hv)
            | _, _, _ => none
          let root3 :=
            match vbt with
            | some t =>
                if !opt.ignoreViewBox then
                  { baseEl "group" with
                    children := [{ root2 with scale := some t.1, position := (.n t.2.1, .n t.2.2) }] }
                else root2
            | none => root2
          let root4 :=
            if !opt.ignoreRootClip then
              match width, height with
              | some wv, some hv =>
                  let clipShape : List (String × JSNum) :=
                    [("x", .num 0), ("y", .num 0), ("width", wv), ("height", hv)]
                  { root3 with clipPath := some clipShape }
              | _, _ => root3
            else root3
          some { root := root4, width := width, height := height,
                 viewBoxRect := viewBoxRect, viewBoxTransform := vbt }

/-- The exported `parseSVG` entry point: construct a fresh `SVGParser`
and call its `parse`. -/
def parseSVGFn (env : JSEnv) (doc : List XMLNode) (opt : SVGParserOpt) : Option SVGResult :=
  parserParse env freshPState doc opt

/-- Two sequential calls of the exported entry point, exactly as a caller
would perform them (each call constructs its own fresh parser). -/
def parseSVGTwice (env : JSEnv) (d1 : List XMLNode) (o1 : SVGParserOpt)
    (d2 : List XMLNode) (o2 : SVGParserOpt) : Option SVGResult × Option SVGResult :=
  (parseSVGFn env d1 o1, parseSVGFn env d2 o2)

/-! ### A concrete default environment

Used to evaluate the embedding at concrete inputs.  On every value those
evaluations touch, `defaultFmtQ` agrees with JS number formatting
(integers print as their decimal digits). -/

/-- Decimal formatting for integers (the only finite values formatted in
the concrete evaluations below); other rationals get a fraction marker. -/
def defaultFmtQ (q : ℚ) : String :=
  if q.den = 1 then toString q.num else toString q.num ++ "/" ++ toString q.den

/-- A concrete environment instance. -/
def envDefault : JSEnv :=
  { fmt := defaultFmtQ, cosF := fun _ => .nan, sinF := fun _ => .nan,
    measureWidth := fun _ => 7 }

/-- A `text` element with attributes `tA` holding two sibling `tspan`
elements (attributes `a1`, `a2`), each with one literal text child. -/
def textDoc (tA a1 a2 : List (String × String)) (s1 s2 : String) : XMLNode :=
  .element "text" tA
    [.element "tspan" a1 [.textNode s1], .element "tspan" a2 [.textNode s2]]

/-! ### Generic lemmas about the JS-object maps -/

/-- Reading a key just written. -/
theorem lookupSetKeySame {α : Type} (m : List (String × α)) (k : String) (v : α) :
    lookupKey (setKey m k v) k = some v := by
  induction m with
  | nil => simp [setKey, lookupKey]
  | cons kv r ih =>
      obtain ⟨k', v'⟩ := kv
      unfold setKey
      by_cases h : k' = k
      · rw [if_pos h]; simp [lookupKey]
      · rw [if_neg h]; simp only [lookupKey, if_neg h]; exact ih

/-- Writing one key does not change another. -/
theorem lookupSetKeyOther {α : Type} (m : List (String × α)) (k k' : String) (v : α)
    (h : k' ≠ k) : lookupKey (setKey m k' v) k = lookupKey m k := by
  induction m with
  | nil => simp [setKey, lookupKey, h]
  | cons kv r ih =>
      obtain ⟨k0, v0⟩ := kv
      unfold setKey
      by_cases h0 : k0 = k'
      · rw [if_pos h0]
        subst h0
        simp [lookupKey, h]
      · rw [if_neg h0]
        unfold lookupKey
        by_cases h1 : k0 = k
        · rw [if_pos h1, if_pos h1]
        · rw [if_neg h1, if_neg h1]; exact ih

/-- `setKey` preserves key distinctness. -/
theorem setKeyNodup {α : Type} (m : List (String × α)) (k : String) (v : α)
    (h : (m.map Prod.fst).Nodup) : ((setKey m k v).map Prod.fst).Nodup := by
  induction m with
  | nil => simp [setKey]
  | cons kv r ih =>
      obtain ⟨k0, v0⟩ := kv
      unfold setKey
      simp only [List.map_cons, List.nodup_cons] at h
      by_cases h0 : k0 = k
      · rw [if_pos h0]
        subst h0
        simp only [List.map_cons, List.nodup_cons]
        exact h
      · rw [if_neg h0]
        simp only [List.map_cons, List.nodup_cons]
        constructor
        · intro hmem
          rcases List.mem_map.mp hmem with ⟨p, hp, hfst⟩
          have : p.1 ∈ (setKey r k v).map Prod.fst := List.mem_map_of_mem _ hp
          rcases setKeyFstMem r k v p.1 this with hcase | hcase
          · exact h.1 (hfst ▸ hcase)
          · exact h0 (hfst ▸ hcase)
        · exact ih h.2
where
  setKeyFstMem (r : List (String × α)) (k : String) (v : α) (x : String)
      (hx : x ∈ (setKey r k v).map Prod.fst) : x ∈ r.map Prod.fst ∨ x = k := by
    induction r with
    | nil => simp [setKey] at hx; exact Or.inr hx
    | cons kv t ih2 =>
        obtain ⟨k0, v0⟩ := kv
        unfold setKey at hx
        by_cases h0 : k0 = k
        · rw [if_pos h0] at hx
          simp only [List.map_cons, List.mem_cons] at hx
          rcases hx with hx | hx
          · exact Or.inr hx
          · exact Or.inl (by simp [hx])
        · rw [if_neg h0] at hx
          simp only [List.map_cons, List.mem_cons] at hx
          rcases hx with hx | hx
          · exact Or.inl (by simp [hx])
          · rcases ih2 hx with hc | hc
            · exact Or.inl (List.mem_cons_of_mem _ hc)
            · exact Or.inr hc

/-- The presentation-attribute fold leaves untouched any style key that no
pair of the remaining allow-list maps to. -/
theorem presentationFoldUntouched (node : XMLNode) (L : List (String × String))
    (z : List (String × String)) (zrN : String)
    (h : ∀ p ∈ L, p.2 ≠ zrN) :
    lookupKey (L.foldl (fun z kv =>
      match node.getAttr kv.1 with
      | some v => setKey z kv.2 v
      | none => z) z) zrN = lookupKey z zrN := by
  induction L generalizing z with
  | nil => rfl
  | cons p rest ih =>
      simp only [List.foldl_cons]
      have h2 : ∀ q ∈ rest, q.2 ≠ zrN := fun q hq => h q (List.mem_cons_of_mem _ hq)
      cases hattr : node.getAttr p.1 with
      | none => simpa [hattr] using ih z h2
      | some v =>
          simp only [hattr]
          rw [ih _ h2]
          exact lookupSetKeyOther z zrN p.2 v (h p (List.mem_cons_self _ _))

/-- If the allow-list maps a present attribute `svgN` to the style key
`zrN` and no other pair maps to `zrN`, the fold assigns the attribute's
value to `zrN`. -/
theorem presentationFoldHit (node : XMLNode) (L : List (String × String))
    (z : List (String × String)) (svgN zrN v : String)
    (hnd : (L.map Prod.snd).Nodup)
    (hmem : (svgN, zrN) ∈ L)
    (hattr : node.getAttr svgN = some v) :
    lookupKey (L.foldl (fun z kv =>
      match node.getAttr kv.1 with
      | some v => setKey z kv.2 v
      | none => z) z) zrN = some v := by
  induction L generalizing z with
  | nil => cases hmem
  | cons p rest ih =>
      simp only [List.map_cons, List.nodup_cons] at hnd
      rcases List.mem_cons.mp hmem with hp | hp
      · subst hp
        simp only [List.foldl_cons, hattr]
        rw [presentationFoldUntouched node rest _ zrN
          (fun q hq hqe => hnd.1 (by simpa [hqe] using List.mem_map_of_mem Prod.snd hq))]
        exact lookupSetKeySame z zrN v
      · simp only [List.foldl_cons]
        cases hattr2 : node.getAttr p.1 with
        | none => simpa [hattr2] using ih z hnd.2 hp
        | some w =>
            simp only [hattr2]
            exact ih (setKey z p.2 w) hnd.2 hp

/-- If the unique pair of the allow-list mapping to `zrN` names an absent
attribute, the fold leaves `zrN` untouched. -/
theorem presentationFoldMiss (node : XMLNode) (L : List (String × String))
    (z : List (String × String)) (svgN zrN : String)
    (hnd : (L.map Prod.snd).Nodup)
    (hmem : (svgN, zrN) ∈ L)
    (hattr : node.getAttr svgN = none) :
    lookupKey (L.foldl (fun z kv =>
      match node.getAttr kv.1 with
      | some v => setKey z kv.2 v
      | none => z) z) zrN = lookupKey z zrN := by
  induction L generalizing z with
  | nil => rfl
  | cons p rest ih =>
      simp only [List.map_cons, List.nodup_cons] at hnd
      rcases List.mem_cons.mp hmem with hp | hp
      · subst hp
        simp only [List.foldl_cons, hattr]
        exact presentationFoldUntouched node rest _ zrN
          (fun q hq hqe => hnd.1 (by simpa [hqe] using List.mem_map_of_mem Prod.snd hq))
      · simp only [List.foldl_cons]
        cases hattr2 : node.getAttr p.1 with
        | none => simpa [hattr2] using ih z hnd.2 hp
        | some w =>
            simp only [hattr2]
            rw [ih (setKey z p.2 w) hnd.2 hp]
            refine lookupSetKeyOther z zrN p.2 w ?_
            intro hpe
            exact hnd.1 (by rw [hpe]; simpa using List.mem_map_of_mem Prod.snd hp)

/-- `extend` looks up to the source first: a key present in the source
(with distinct source keys) reads back its source value. -/
theorem lookupExtendOfSrc {α : Type} (t s : List (String × α)) (k : String) (v : α)
    (hnd : (s.map Prod.fst).Nodup) (h : lookupKey s k = some v) :
    lookupKey (extendMap t s) k = some v := by
  induction s generalizing t with
  | nil => cases h
  | cons kv rest ih =>
      obtain ⟨k0, v0⟩ := kv
      simp only [List.map_cons, List.nodup_cons] at hnd
      unfold lookupKey at h
      have hstep : extendMap t ((k0, v0) :: rest) = extendMap (setKey t k0 v0) rest := rfl
      rw [hstep]
      by_cases h0 : k0 = k
      · rw [if_pos h0] at h
        cases h
        subst h0
        have hnone : lookupKey rest k0 = none := by
          cases hl : lookupKey rest k0 with
          | none => rfl
          | some w =>
              exact absurd (lookupMemKeys rest k0 w hl) hnd.1
        rw [extendPreservesAbsent (setKey t k0 v) rest k0 hnone]
        exact lookupSetKeySame t k0 v
      · rw [if_neg h0] at h
        exact ih (setKey t k0 v0) hnd.2 h
where
  lookupMemKeys (m : List (String × α)) (k : String) (w : α)
      (h : lookupKey m k = some w) : k ∈ m.map Prod.fst := by
    induction m with
    | nil => cases h
    | cons kv r ih2 =>
        obtain ⟨k0, v0⟩ := kv
        unfold lookupKey at h
        by_cases h0 : k0 = k
        · simp [h0]
        · rw [if_neg h0] at h
          exact List.mem_cons_of_mem _ (ih2 h)
  extendPreservesAbsent (t m : List (String × α)) (k : String)
      (h : lookupKey m k = none) : lookupKey (extendMap t m) k = lookupKey t k := by
    induction m generalizing t with
    | nil => rfl
    | cons kv r ih2 =>
        obtain ⟨k0, v0⟩ := kv
        unfold lookupKey at h
        by_cases h0 : k0 = k
        · rw [if_pos h0] at h; cases h
        · rw [if_neg h0] at h
          have hstep : extendMap t ((k0, v0) :: r) = extendMap (setKey t k0 v0) r := rfl
          rw [hstep, ih2 (setKey t k0 v0) h]
          exact lookupSetKeyOther t k k0 v0 h0

/-- `extend` falls back to the target: a key absent from the source keeps
its target value. -/
theorem lookupExtendOfTgt {α : Type} (t s : List (String × α)) (k : String)
    (h : lookupKey s k = none) :
    lookupKey (extendMap t s) k = lookupKey t k :=
  lookupExtendOfSrc.extendPreservesAbsent t s k h

/-! ## The claims -/

attribute [local semireducible] Rat.add Rat.mul Rat.inv Rat.sub

/-- C3: if no node of the sibling chain scanned from the document root is
an element (nodeType 1) whose name is `svg` case-insensitively, the
sibling scan walks off the chain and `parse` fails with an error,
producing no output — deterministically, for every state, environment and
options. -/
theorem parseFailsWithoutSvgRootC3 (env : JSEnv) (st : PState) (doc : List XMLNode)
    (opt : SVGParserOpt)
    (h : ∀ nd ∈ doc, ¬(lowerStr nd.nodeName = "svg" ∧ nd.nodeType = 1)) :
    parserParse env st doc opt = none ∧ findSvgNode doc = none := by
  have hf : findSvgNode doc = none := by
    clear env st opt
    induction doc with
    | nil => rfl
    | cons n rest ih =>
        have hn := h n (List.mem_cons_self _ _)
        unfold findSvgNode
        rw [if_neg]
        · exact ih fun nd hnd => h nd (List.mem_cons_of_mem _ hnd)
        · simp only [Bool.and_eq_true, decide_eq_true_eq]
          exact hn
  refine ⟨?_, hf⟩
  simp only [parserParse, hf]

/-- Witness for C3 at a concrete document whose sibling chain holds a
non-svg element and an svg-named doctype (nodeType 10). -/
theorem parseFailsWithoutSvgRootC3Witness :
    parserParse envDefault freshPState
      [.element "html" [] [], .misc "svg" 10] { } = none :=
  (parseFailsWithoutSvgRootC3 envDefault freshPState
    [.element "html" [] [], .misc "svg" 10] { } (by decide)).1

/-- C4: for a viewBox rectangle with positive extent, the computed
transform scales both axes by `min(width / vbWidth, height / vbHeight)`
and translates so that the scaled viewBox center lands on the viewport
center (the two centering identities). -/
theorem viewBoxMeetScaleCentersC4 (x y vw vh W H : ℚ) (hw : 0 < vw) (hh : 0 < vh) :
    makeViewBoxTransform (.num x) (.num y) (.num vw) (.num vh) (.num W) (.num H)
      = ((.num (min (W / vw) (H / vh)), .num (min (W / vw) (H / vh))),
         (.num (-((x + vw / 2) * min (W / vw) (H / vh)) + W / 2),
          .num (-((y + vh / 2) * min (W / vw) (H / vh)) + H / 2)))
    ∧ (x + vw / 2) * min (W / vw) (H / vh)
        + (-((x + vw / 2) * min (W / vw) (H / vh)) + W / 2) = W / 2
    ∧ (y + vh / 2) * min (W / vw) (H / vh)
        + (-((y + vh / 2) * min (W / vw) (H / vh)) + H / 2) = H / 2 := by
  refine ⟨?_, by ring, by ring⟩
  unfold makeViewBoxTransform
  simp only [JSNum.div, JSNum.jsmin, JSNum.add, JSNum.mul, JSNum.neg,
    if_neg hw.ne', if_neg hh.ne']
  norm_num

/-- Witness for C4: the claim's own numbers — viewBox `(0,0,100,50)` into
a `200×200` viewport gives uniform scale `2` and translation `(0, 50)`. -/
theorem viewBoxMeetScaleCentersC4Witness :
    (0 : ℚ) < 100 ∧ (0 : ℚ) < 50 ∧
    makeViewBoxTransform (.num 0) (.num 0) (.num 100) (.num 50) (.num 200) (.num 200)
      = ((.num 2, .num 2), (.num 0, .num 50)) := by
  refine ⟨by norm_num, by norm_num, ?_⟩
  have h := (viewBoxMeetScaleCentersC4 0 0 100 50 200 200 (by norm_num) (by norm_num)).1
  rw [h]
  norm_num [min_def]

/-- C10: the exported entry point builds a fresh parser per call — empty
defs registry, cleared mode flags, undefined cursor — so a pair of
sequential calls is exactly the pair of pure results from the fresh
state: the second call is unaffected by the first, and equal documents
with equal options give equal results. -/
theorem parseSVGFreshPerCallC10 (env : JSEnv) (d1 d2 : List XMLNode)
    (o1 o2 : SVGParserOpt) :
    parseSVGTwice env d1 o1 d2 o2
      = (parserParse env ⟨[], false, false, .undef, .undef⟩ d1 o1,
         parserParse env ⟨[], false, false, .undef, .undef⟩ d2 o2)
    ∧ (parseSVGTwice env d1 o1 d2 o2).2 = parseSVGFn env d2 o2
    ∧ (d1 = d2 → o1 = o2 →
        (parseSVGTwice env d1 o1 d2 o2).1 = (parseSVGTwice env d1 o1 d2 o2).2) :=
  ⟨rfl, rfl, fun h1 h2 => by rw [parseSVGTwice, h1, h2]⟩

/-- Witness for C10 at a concrete document and options. -/
theorem parseSVGFreshPerCallC10Witness :
    (parseSVGTwice envDefault [XMLNode.element "svg" [] []] { }
        [XMLNode.element "svg" [] []] { }).1
      = (parseSVGTwice envDefault [XMLNode.element "svg" [] []] { }
        [XMLNode.element "svg" [] []] { }).2 :=
  (parseSVGFreshPerCallC10 envDefault [XMLNode.element "svg" [] []]
    [XMLNode.element "svg" [] []] { } { }).2.2 rfl rfl

/-- C2 (code bug): on `transform="translate(10,0) scale(2)"` the loop
reads `value[0]`/`value[1]` — single characters of the raw argument
string, not the split token array `valueArr` (computed but never used) —
so the composed matrix translates by `(1, 0)`: it is not the product
`T(10,0) · S(2,2)` the claim (and the spec) describe, whose translation
column is `(10, 0)`.  The reverse replay itself (scale first, translate
last/outermost) is visible in both matrices. -/
theorem transformCharIndexBugC2 (cosF sinF : JSNum → JSNum) :
    composeTransformAttr cosF sinF "translate(10,0) scale(2)"
      = (some ⟨.num 2, .num 0, .num 0, .num 2, .num 1, .num 0⟩, [])
    ∧ matMul (matT 10 0) (matS 2 2)
      = ⟨.num 2, .num 0, .num 0, .num 2, .num 10, .num 0⟩
    ∧ (⟨.num 2, .num 0, .num 0, .num 2, .num 1, .num 0⟩ : Mat)
      ≠ matMul (matT 10 0) (matS 2 2) := by
  refine ⟨rfl, by decide, by decide⟩

/-- C7 counterexample: on `transform="skewX(30)"` the function is
recognized (scanned as a `skewX` op) and the composed matrix is the
identity, but the diagnostics list is empty — no warning is emitted,
because the `switch` case guarding the warning tests for the literal
name `skew`, which the scanner never produces. -/
theorem skewNoDiagnosticC7Counterexample :
    scanTransformOps (replaceCommas "skewX(30)").data = [("skewX", "30")]
    ∧ composeTransformAttr envDefault.cosF envDefault.sinF "skewX(30)"
      = (some matCreate, []) := by
  exact ⟨rfl, rfl⟩

/-- C7 amended: a `skewX`/`skewY` function is recognized and applied as
the identity — the step keeps the current matrix (creating the identity
when none exists yet) — parsing never aborts, but no diagnostic is
emitted (the diagnostics list is left unchanged; the warning branch is
dead). -/
theorem skewIdentityNoDiagnosticC7 (cosF sinF : JSNum → JSNum) (v : String)
    (acc : Option Mat × List String) :
    applyTransformOp cosF sinF acc ("skewX", v) = (some (acc.1.getD matCreate), acc.2)
    ∧ applyTransformOp cosF sinF acc ("skewY", v) = (some (acc.1.getD matCreate), acc.2)
    ∧ composeTransformOps cosF sinF [("skewX", v)] = (some matCreate, [])
    ∧ composeTransformOps cosF sinF [("skewY", v)] = (some matCreate, []) :=
  ⟨rfl, rfl, rfl, rfl⟩

/-- C8 counterexample: `parsePoints "1 2 3"` yields two pairs — the odd
trailing token `3` is not dropped but paired with `NaN`
(`parseFloat(undefined)`), so the claimed count `floor(3/2) = 1` is
wrong. -/
theorem pointsOddTailC8Counterexample :
    parsePoints "1 2 3" = [(.num 1, .num 2), (.num 3, .nan)]
    ∧ (parsePoints "1 2 3").length = 2
    ∧ (3 : Nat) / 2 = 1
    ∧ (2 : Nat) ≠ 1 := by
  refine ⟨by decide, by decide, by decide, by decide⟩

/-- The fueled points loop meets its pairing specification whenever the
fuel covers the token count. -/
theorem pointsLoopFuelSpec (fuel : Nat) (l : List String) (h : l.length ≤ fuel) :
    (pointsLoopFuel fuel l).length = (l.length + 1) / 2
    ∧ ∀ i : Nat, i < (pointsLoopFuel fuel l).length →
        (pointsLoopFuel fuel l).get? i
          = some (jsParseFloatOpt (l.get? (2 * i)), jsParseFloatOpt (l.get? (2 * i + 1))) := by
  induction fuel generalizing l with
  | zero =>
      cases l with
      | nil => exact ⟨rfl, fun i hi => absurd hi (by simp [pointsLoopFuel])⟩
      | cons x rest => simp at h
  | succ k ih =>
      cases l with
      | nil => exact ⟨rfl, fun i hi => absurd hi (by simp [pointsLoopFuel])⟩
      | cons x rest =>
          cases rest with
          | nil =>
              refine ⟨by simp [pointsLoopFuel], fun i hi => ?_⟩
              have hi0 : i = 0 := by
                simp only [pointsLoopFuel, List.length_singleton] at hi
                omega
              subst hi0
              rfl
          | cons y rest2 =>
              have h2 : rest2.length ≤ k := by
                simp only [List.length_cons] at h
                omega
              have ihr := ih rest2 h2
              refine ⟨?_, fun i hi => ?_⟩
              · simp only [pointsLoopFuel, List.length_cons, ihr.1]
                omega
              · cases i with
                | zero => rfl
                | succ j =>
                    have hj : j < (pointsLoopFuel k rest2).length := by
                      simp only [pointsLoopFuel, List.length_cons] at hi
                      omega
                    have hrec := ihr.2 j hj
                    have e1 : (x :: y :: rest2).get? (2 * (j + 1)) = rest2.get? (2 * j) := by
                      have e : 2 * (j + 1) = 2 * j + 1 + 1 := by ring
                      rw [e, List.get?_cons_succ, List.get?_cons_succ]
                    have e2 : (x :: y :: rest2).get? (2 * (j + 1) + 1) = rest2.get? (2 * j + 1) := by
                      have e : 2 * (j + 1) + 1 = 2 * j + 1 + 1 + 1 := by ring
                      rw [e, List.get?_cons_succ, List.get?_cons_succ]
                    calc (pointsLoopFuel (k + 1) (x :: y :: rest2)).get? (j + 1)
                        = (pointsLoopFuel k rest2).get? j := rfl
                      _ = some (jsParseFloatOpt (rest2.get? (2 * j)),
                            jsParseFloatOpt (rest2.get? (2 * j + 1))) := hrec
                      _ = some (jsParseFloatOpt ((x :: y :: rest2).get? (2 * (j + 1))),
                            jsParseFloatOpt ((x :: y :: rest2).get? (2 * (j + 1) + 1))) := by
                          rw [e1, e2]

/-- C8 amended: the coordinate loop consumes tokens two at a time and
produces `ceil(n/2) = (n+1)/2` pairs; each pair holds the `parseFloat`
of two adjacent tokens, the missing partner of an odd trailing token
being `undefined`, which parses to `NaN` — nothing is dropped. -/
theorem pointsPairTokensC8 (l : List String) :
    (pointsLoop l).length = (l.length + 1) / 2
    ∧ ∀ i : Nat, i < (pointsLoop l).length →
        (pointsLoop l).get? i
          = some (jsParseFloatOpt (l.get? (2 * i)), jsParseFloatOpt (l.get? (2 * i + 1))) :=
  pointsLoopFuelSpec l.length l (Nat.le_refl _)

/-- Witness for C8 amended at the tokens of `"1 2 3"`. -/
theorem pointsPairTokensC8Witness :
    (pointsLoop ["1", "2", "3"]).length = (([ "1", "2", "3"] : List String).length + 1) / 2
    ∧ (pointsLoop ["1", "2", "3"]).get? 1
        = some (jsParseFloatOpt ((["1", "2", "3"] : List String).get? 2),
                jsParseFloatOpt ((["1", "2", "3"] : List String).get? 3)) :=
  ⟨(pointsPairTokensC8 ["1", "2", "3"]).1,
   (pointsPairTokensC8 ["1", "2", "3"]).2 1 (by decide)⟩

/-- C9 (code bug): a gradient stop element with no `offset` attribute
makes the stop loop dereference `null` (`offsetStr.indexOf('%')`) and the
whole definition parse throws — instead of defaulting the offset to `0`
as the claim (and the code's own unreachable `else` branch) intend.  The
remaining behaviour matches the claim: `offset="50%"` parses to `1/2`
with a missing `stop-color` defaulting to opaque black, `offset="0.3"`
parses as a bare fraction, and an empty offset defaults to `0`. -/
theorem gradientStopOffsetCrashC9 :
    parseGradientColorStops [.element "stop" [] []] = none
    ∧ parseLinearGradientDef
        (.element "lineargradient" [("id", "g1")] [.element "stop" [] []]) = none
    ∧ parseGradientColorStops
        [.element "stop" [("offset", "50%")] [],
         .element "stop" [("offset", "0.3"), ("stop-color", "red")] [],
         .element "stop" [("offset", "")] []]
      = some [⟨.num (1/2), "#000000"⟩, ⟨.num (3/10), "red"⟩, ⟨.num 0, "#000000"⟩] := by
  refine ⟨rfl, rfl, by decide⟩

/-- Folding the allow-list translation of inline declarations preserves
key distinctness. -/
theorem styleFoldNodup (L : List (String × String)) (src0 : List (String × String))
    (acc : List (String × String)) (hacc : (acc.map Prod.fst).Nodup) :
    ((L.foldl (fun res kv =>
        match lookupKey src0 kv.1 with
        | some v => setKey res kv.2 v
        | none => res) acc).map Prod.fst).Nodup := by
  induction L generalizing acc with
  | nil => exact hacc
  | cons p rest ih =>
      simp only [List.foldl_cons]
      cases h : lookupKey src0 p.1 with
      | none => simpa [h] using ih acc hacc
      | some v =>
          simp only [h]
          exact ih _ (setKeyNodup acc p.2 v hacc)

/-- The inline-style record produced by `parseStyleAttribute` has
distinct keys. -/
theorem parseStyleAttributeNodup (node : XMLNode) :
    ((parseStyleAttribute node).map Prod.fst).Nodup := by
  unfold parseStyleAttribute
  split
  · simp
  · split
    · simp
    · exact styleFoldNodup attributesMapL _ [] (by simp)

/-- C1 counterexample: on an element carrying both `style="fill:red"` and
`fill="blue"`, the assigned fill is `blue` — the presentation attribute,
not the inline declaration `red`. -/
theorem inlineStyleOverriddenC1Counterexample :
    lookupKey (parseAttributes envDefault
        (.element "rect" [("style", "fill:red"), ("fill", "blue")] [])
        (baseEl "rect") none false).styleMap "fill" = some (.str "blue")
    ∧ lookupKey (parseStyleAttribute
        (.element "rect" [("style", "fill:red"), ("fill", "blue")] [])) "fill" = some "red"
    ∧ some (StyleVal.str "blue") ≠ some (StyleVal.str "red") :=
  ⟨by decide, by decide, by decide⟩

/-- C1 amended: in the merged style record the precedence is presentation
attribute over inline `style` declaration over inherited value: a present
allow-listed attribute always wins; with the attribute absent, a present
inline declaration wins; with both absent, the inherited value remains. -/
theorem presentationAttrPrecedenceC1 (name : String) (attrs : List (String × String))
    (cs : List XMLNode) (inh : List (String × String)) (svgN zrN : String)
    (hmem : (svgN, zrN) ∈ attributesMapL) :
    (∀ v, lookupKey attrs svgN = some v →
        lookupKey (resolveZrStyle (.element name attrs cs) inh false) zrN = some v)
    ∧ (lookupKey attrs svgN = none →
        ∀ w, lookupKey (parseStyleAttribute (.element name attrs cs)) zrN = some w →
          lookupKey (resolveZrStyle (.element name attrs cs) inh false) zrN = some w)
    ∧ (lookupKey attrs svgN = none →
        lookupKey (parseStyleAttribute (.element name attrs cs)) zrN = none →
        lookupKey (resolveZrStyle (.element name attrs cs) inh false) zrN
          = lookupKey inh zrN) := by
  have hnode : (XMLNode.element name attrs cs).getAttr svgN = lookupKey attrs svgN := rfl
  have hnd : (attributesMapL.map Prod.snd).Nodup := by decide
  have hres : resolveZrStyle (.element name attrs cs) inh false
      = applyPresentationAttrs (.element name attrs cs)
          (extendMap inh (parseStyleAttribute (.element name attrs cs))) := by
    simp [resolveZrStyle, XMLNode.nodeType]
  refine ⟨?_, ?_, ?_⟩
  · intro v hv
    rw [hres]
    unfold applyPresentationAttrs
    exact presentationFoldHit _ attributesMapL _ svgN zrN v hnd hmem (hnode ▸ hv)
  · intro hnone w hw
    rw [hres]
    unfold applyPresentationAttrs
    rw [presentationFoldMiss _ attributesMapL _ svgN zrN hnd hmem (hnode ▸ hnone)]
    exact lookupExtendOfSrc inh _ zrN w (parseStyleAttributeNodup _) hw
  · intro hnone hnone2
    rw [hres]
    unfold applyPresentationAttrs
    rw [presentationFoldMiss _ attributesMapL _ svgN zrN hnd hmem (hnode ▸ hnone)]
    exact lookupExtendOfTgt inh _ zrN hnone2

/-- Witness for C1 amended at the counterexample's element. -/
theorem presentationAttrPrecedenceC1Witness :
    lookupKey (resolveZrStyle
        (.element "rect" [("style", "fill:red"), ("fill", "blue")] []) [] false) "fill"
      = some "blue" :=
  (presentationAttrPrecedenceC1 "rect" [("style", "fill:red"), ("fill", "blue")]
    [] [] "fill" "fill" (by decide)).1 "blue" (by decide)

/-- Taking while a predicate holds stops exactly at a sentinel that
fails it. -/
theorem takeWhileAppendSentinel (p : Char → Bool) (xs ys : List Char) (y : Char)
    (hxs : ∀ x ∈ xs, p x = true) (hy : p y = false) :
    (xs ++ y :: ys).takeWhile p = xs := by
  induction xs with
  | nil => simp [List.takeWhile_cons, hy]
  | cons a t ih =>
      have ha := hxs a (List.mem_cons_self _ _)
      simp [List.takeWhile_cons, ha,
        ih fun x hx => hxs x (List.mem_cons_of_mem _ hx)]

/-- The `urlRegex` matcher at a string of the shape `url(#<id>)<post>`:
the capture is exactly `<id>` when `<id>` contains no `)` and no line
terminator. -/
theorem urlTryHereShape (id post : List Char)
    (hid : ∀ c ∈ id, isUrlBodyChar c = true) :
    urlTryHere ('u' :: 'r' :: 'l' :: '(' :: '#' :: (id ++ ')' :: post)) = some id := by
  unfold urlTryHere
  rw [if_pos (by rfl)]
  have hdrop : (('u' :: 'r' :: 'l' :: '(' :: '#' :: (id ++ ')' :: post)).drop 4)
      = '#' :: (id ++ ')' :: post) := rfl
  simp only [hdrop]
  have hdw : ('#' :: (id ++ ')' :: post)).dropWhile Char.isWhitespace
      = '#' :: (id ++ ')' :: post) := rfl
  simp only [hdw]
  rw [if_pos (by rfl)]
  simp only [List.tail_cons]
  rw [takeWhileAppendSentinel isUrlBodyChar id post ')' hid rfl]
  rw [List.drop_left]
  rfl

/-- The global `urlRegex` search on a string of the shape
`url(#<id>)<post>` captures `<id>` (the match at position 0 wins). -/
theorem scanUrlCaptureShape (id post : List Char)
    (hid : ∀ c ∈ id, isUrlBodyChar c = true) :
    scanUrlCapture ('u' :: 'r' :: 'l' :: '(' :: '#' :: (id ++ ')' :: post)) = some id := by
  unfold scanUrlCapture
  rw [urlTryHereShape id post hid]

/-- The global `urlRegex` search fails on any string not containing the
substring `url(`. -/
theorem scanUrlCaptureNoUrl (s : List Char)
    (h : containsSub "url(".data s = false) :
    scanUrlCapture s = none := by
  induction s with
  | nil => rfl
  | cons c cs ih =>
      unfold containsSub at h
      rw [Bool.or_eq_false_iff] at h
      have ht : urlTryHere (c :: cs) = none := by
        unfold urlTryHere
        rw [h.1]
        rfl
      unfold scanUrlCapture
      rw [ht]
      exact ih h.2

/-- A sample gradient paint for the C6 witness. -/
def gradExample : GradientDef := ⟨.num 0, .num 0, .num 10, .num 0, []⟩

/-- C6: a style value of the shape `url(#<id>)<post>` (the id free of `)`
and line terminators) resolves through the defs registry to the paint
registered under the trimmed id — `undefined` (`none`), not an error,
when no such id is registered — while any value not containing `url(` is
passed through unchanged. -/
theorem urlPaintResolutionC6 (defs : DefsMap) (id post : String)
    (hid : ∀ c ∈ id.data, isUrlBodyChar c = true) :
    getPaint ("url(#" ++ id ++ ")" ++ post) (some defs)
      = .paint (lookupKey defs (trimStr id))
    ∧ ∀ s : String, containsSub "url(".data s.data = false →
        getPaint s (some defs) = .str s := by
  constructor
  · have hdata : ("url(#" ++ id ++ ")" ++ post).data
        = 'u' :: 'r' :: 'l' :: '(' :: '#' :: (id.data ++ ')' :: post.data) := by
      simp [String.data_append]
    have hne : ("url(#" ++ id ++ ")" ++ post) ≠ "" := by
      intro he
      have h2 : ("url(#" ++ id ++ ")" ++ post).data = ([] : List Char) := by
        rw [he]
      rw [hdata] at h2
      cases h2
    simp only [getPaint]
    rw [if_neg hne, hdata, scanUrlCaptureShape id.data post.data hid]
  · intro s hs
    simp only [getPaint]
    by_cases hse : s = ""
    · rw [if_pos hse]
    · rw [if_neg hse, scanUrlCaptureNoUrl s.data hs]

/-- Witness for C6: `url(#g1)` resolves to the registered gradient and
`none` passes through; `url(#zz)` (unregistered) resolves to `undefined`. -/
theorem urlPaintResolutionC6Witness :
    getPaint "url(#g1)" (some [("g1", gradExample)]) = .paint (some gradExample)
    ∧ getPaint "none" (some [("g1", gradExample)]) = .str "none"
    ∧ getPaint "url(#zz)" (some [("g1", gradExample)]) = .paint none := by
  have h1 := urlPaintResolutionC6 [("g1", gradExample)] "g1" "" (by decide)
  have h2 := urlPaintResolutionC6 [("g1", gradExample)] "zz" "" (by decide)
  have e1 : ("url(#" ++ "g1" ++ ")" ++ "" : String) = "url(#g1)" := by decide
  have e2 : ("url(#" ++ "zz" ++ ")" ++ "" : String) = "url(#zz)" := by decide
  refine ⟨?_, h1.2 "none" (by decide), ?_⟩
  · rw [← e1, h1.1]
    decide
  · rw [← e2, h2.1]
    decide

/-! ### Structural preservation lemmas for the text-cursor claim -/

/-- `inheritStyle` only touches the inherited-style field. -/
theorem inheritStylePreserves (p : Option ZRElement) (c : ZRElement) :
    (inheritStyle p c).position = c.position ∧ (inheritStyle p c).children = c.children := by
  unfold inheritStyle
  split
  · exact ⟨rfl, rfl⟩
  · split
    · exact ⟨rfl, rfl⟩
    · exact ⟨rfl, rfl⟩

/-- Applying the transform attribute only touches the local transform. -/
theorem applyTransformPreserves (env : JSEnv) (node : XMLNode) (el : ZRElement) :
    (applyTransformAttrToEl env node el).position = el.position
    ∧ (applyTransformAttrToEl env node el).children = el.children := by
  unfold applyTransformAttrToEl
  split
  · split
    · split
      · exact ⟨rfl, rfl⟩
      · exact ⟨rfl, rfl⟩
    · exact ⟨rfl, rfl⟩
  · exact ⟨rfl, rfl⟩

/-- `parseAttributes` leaves position and children untouched. -/
theorem parseAttributesPreserves (env : JSEnv) (node : XMLNode) (el : ZRElement)
    (defs : Option DefsMap) (b : Bool) :
    (parseAttributes env node el defs b).position = el.position
    ∧ (parseAttributes env node el defs b).children = el.children := by
  unfold parseAttributes
  constructor
  · show (if node.nodeType = 1 then applyTransformAttrToEl env node el else el).position
      = el.position
    split
    · exact (applyTransformPreserves env node el).1
    · rfl
  · show (if node.nodeType = 1 then applyTransformAttrToEl env node el else el).children
      = el.children
    split
    · exact (applyTransformPreserves env node el).2
    · rfl

/-- The tiny-font clamp leaves position and children untouched. -/
theorem clampTinyFontPreserves (t : ZRElement) :
    (clampTinyFont t).position = t.position ∧ (clampTinyFont t).children = t.children := by
  unfold clampTinyFont
  split
  · split
    · exact ⟨rfl, rfl⟩
    · exact ⟨rfl, rfl⟩
  · exact ⟨rfl, rfl⟩

/-- The cursor position written into a text run: a numeric cursor is used
verbatim (a zero cursor is falsy, but the fallback is the same zero). -/
theorem cursorPosOfNum (q : ℚ) :
    (if (JSVal.n (.num q)).truthy = true then JSVal.n (.num q) else .n (.num 0))
      = .n (.num q) := by
  by_cases h : q = 0
  · subst h
    simp [JSVal.truthy, JSNum.truthy]
  · simp [JSVal.truthy, JSNum.truthy, h]

/-- A literal text run emitted at a numeric cursor starts at the cursor
and advances it by the run's measured width. -/
theorem textRunStep (env : JSEnv) (content : String) (pg : ZRElement) (st : PState)
    (q : ℚ) (hq : st.textX = .n (.num q)) :
    ∃ run st',
      parseTextRun env (.textNode content) (some pg) st = some (run, st')
      ∧ run.position.1 = .n (.num q)
      ∧ st' = { st with textX := .n (.num (q + env.measureWidth run)) } := by
  simp only [parseTextRun, XMLNode.nodeType, show ((3 : Nat) = 1) = False from by simp,
    if_false]
  rw [hq, cursorPosOfNum q]
  refine ⟨_, _, rfl, ?_, rfl⟩
  rw [(clampTinyFontPreserves _).1, (parseAttributesPreserves _ _ _ _ _).1,
    (inheritStylePreserves _ _).1]

/-- JS `+` of two numeric values. -/
theorem jsPlusNumNum (f : ℚ → String) (x y : ℚ) :
    jsPlus f (.n (.num x)) (.n (.num y)) = .n (.num (x + y)) := rfl

/-- The `tspan` node-parser at a numeric cursor, when the element carries
no `x`, `y` or `dx` attribute: the horizontal cursor is advanced by the
number `0` and a styling-only group is built. -/
theorem tspanStepNoXY (env : JSEnv) (a : List (String × String)) (cs : List XMLNode)
    (pg : Option ZRElement) (st : PState) (q : ℚ)
    (hx : lookupKey a "x" = none) (hy : lookupKey a "y" = none)
    (hdx : lookupKey a "dx" = none) (hq : st.textX = .n (.num q)) :
    runNodeParser env "tspan" (.element "tspan" a cs) pg st
      = some (parseAttributes env (.element "tspan" a cs)
            (inheritStyle pg (baseEl "group")) (some st.defs) false,
          { st with
            textX := .n (.num (q + 0)),
            textY := jsPlus env.fmt st.textY
              (attrOrZeroVal (.element "tspan" a cs) "dy") }) := by
  have hgx : (XMLNode.element "tspan" a cs).getAttr "x" = none := hx
  have hgy : (XMLNode.element "tspan" a cs).getAttr "y" = none := hy
  have hgdx : (XMLNode.element "tspan" a cs).getAttr "dx" = none := hdx
  have hdxv : attrOrZeroVal (.element "tspan" a cs) "dx" = .n (.num 0) := by
    unfold attrOrZeroVal
    rw [hgdx]
  simp only [runNodeParser, hgx, hgy, hdxv, hq, jsPlusNumNum]
  rfl

/-- Walking a `tspan` with no `x`/`y`/`dx` attribute holding one literal
text run, in text mode at a numeric cursor `q`: the built group holds
exactly the run, the run starts at the cursor, and the cursor advances by
the run's measured width. -/
theorem tspanRunStep (env : JSEnv) (a : List (String × String)) (s1 : String)
    (pg : ZRElement) (st : PState) (q : ℚ) (k : Nat)
    (hx : lookupKey a "x" = none) (hy : lookupKey a "y" = none)
    (hdx : lookupKey a "dx" = none) (hq : st.textX = .n (.num q))
    (htext : st.isText = true) (hdef : st.isDefine = false) :
    ∃ g run st',
      parseNodeFuel (k + 1) env (.element "tspan" a [.textNode s1]) (some pg) st
        = some (some g, st')
      ∧ g.children = [run]
      ∧ run.position.1 = .n (.num (q + 0))
      ∧ st'.textX = .n (.num (q + 0 + env.measureWidth run))
      ∧ st'.isText = true ∧ st'.isDefine = false := by
  have hname : lowerStr (XMLNode.element "tspan" a [.textNode s1]).nodeName = "tspan" := rfl
  have hmode : modeEnter "tspan" st = st := rfl
  have hmain : parseNodeMain env "tspan" (.element "tspan" a [.textNode s1]) (some pg) st
      = some (some (parseAttributes env (.element "tspan" a [.textNode s1])
            (inheritStyle (some pg) (baseEl "group")) (some st.defs) false),
          { st with
            textX := .n (.num (q + 0)),
            textY := jsPlus env.fmt st.textY
              (attrOrZeroVal (.element "tspan" a [.textNode s1]) "dy") }) := by
    unfold parseNodeMain
    rw [hdef, tspanStepNoXY env a [.textNode s1] (some pg) st q hx hy hdx hq, hdef]
    rfl
  simp only [parseNodeFuel, hname, hmode, hmain]
  set PA : ZRElement := parseAttributes env (.element "tspan" a [.textNode s1])
      (inheritStyle (some pg) (baseEl "group")) (some st.defs) false with hPA
  set st2 : PState := { st with
      textX := .n (.num (q + 0)),
      textY := jsPlus env.fmt st.textY
        (attrOrZeroVal (.element "tspan" a [.textNode s1]) "dy") } with hst2
  have htext2 : st2.isText = true := htext
  have hdef2 : st2.isDefine = false := hdef
  obtain ⟨run, st', hrun, hpos, hst'⟩ := textRunStep env s1 PA st2 (q + 0) rfl
  have hstep : parseChildStep (parseNodeFuel k env) env (.textNode s1)
      (some PA) st2 = some (some run, st') := by
    unfold parseChildStep
    rw [htext2, hrun]
    rfl
  simp only [parseKids, XMLNode.childrenList, List.foldl_cons, List.foldl_nil, hstep]
  refine ⟨{ PA with children := PA.children ++ ([] ++ [run]) }, run, st',
    ?_, ?_, hpos, ?_, ?_, ?_⟩
  · rfl
  · show PA.children ++ ([] ++ [run]) = [run]
    rw [hPA, (parseAttributesPreserves _ _ _ _ _).2, (inheritStylePreserves _ _).2]
    rfl
  · rw [hst']
  · rw [hst']
    exact htext2
  · rw [hst']
    exact hdef2

/-- C5: inside a `text` element whose resolved initial cursor is the
number `x0`, two sibling `tspan` elements carrying no `x`/`y`/`dx`
attributes, each holding one literal text run, place the first run at
`x0` and the second run at `x0` plus the first run's measured rendered
width: the text cursor advances by each run's measured width.  (Amended
from the spec's claim, which required only that the siblings carry no
`x`/`y`: a `dx` attribute on a `tspan` is read as `getAttribute(. . .) || 0`
— a string — and `this._textX += dx` then concatenates instead of adding,
so the cursor leaves the number line and the advance law fails; see the
counterexample.) -/
theorem textCursorAdvanceC5 (env : JSEnv) (tA a1 a2 : List (String × String))
    (s1 s2 : String) (pg : ZRElement) (st : PState) (x0 : ℚ)
    (hdef : st.isDefine = false)
    (hx0 : (jsParseFloat (attrOrDefault (textDoc tA a1 a2 s1 s2) "x" "0")).add
        (jsParseFloat (attrOrDefault (textDoc tA a1 a2 s1 s2) "dx" "0")) = .num x0)
    (hx1 : lookupKey a1 "x" = none) (hy1 : lookupKey a1 "y" = none)
    (hdx1 : lookupKey a1 "dx" = none)
    (hx2 : lookupKey a2 "x" = none) (hy2 : lookupKey a2 "y" = none)
    (hdx2 : lookupKey a2 "dx" = none) :
    ∃ g g1 g2 run1 run2 stF,
      parseNodeF env (textDoc tA a1 a2 s1 s2) (some pg) st = some (some g, stF)
      ∧ g.children = [g1, g2]
      ∧ g1.children = [run1] ∧ g2.children = [run2]
      ∧ run1.position.1 = .n (.num x0)
      ∧ run2.position.1 = .n (.num (x0 + env.measureWidth run1)) := by
  set PAtext : ZRElement := parseAttributes env (textDoc tA a1 a2 s1 s2)
      (inheritStyle (some pg) (baseEl "group")) (some st.defs) false with hPA
  have hmain0 : parseNodeMain env "text" (textDoc tA a1 a2 s1 s2) (some pg)
      (modeEnter "text" st)
      = some (some PAtext, { st with
          isText := true,
          textX := .n ((jsParseFloat (attrOrDefault (textDoc tA a1 a2 s1 s2) "x" "0")).add
            (jsParseFloat (attrOrDefault (textDoc tA a1 a2 s1 s2) "dx" "0"))),
          textY := .n ((jsParseFloat (attrOrDefault (textDoc tA a1 a2 s1 s2) "y" "0")).add
            (jsParseFloat (attrOrDefault (textDoc tA a1 a2 s1 s2) "dy" "0"))) }) := by
    unfold parseNodeMain
    rw [show (modeEnter "text" st).isDefine = false from hdef]
    rfl
  rw [hx0] at hmain0
  set st1 : PState := { st with
      isText := true,
      textX := .n (.num x0),
      textY := .n ((jsParseFloat (attrOrDefault (textDoc tA a1 a2 s1 s2) "y" "0")).add
        (jsParseFloat (attrOrDefault (textDoc tA a1 a2 s1 s2) "dy" "0"))) } with hst1
  have hst1x : st1.textX = .n (.num x0) := rfl
  have hst1t : st1.isText = true := rfl
  have hst1d : st1.isDefine = false := hdef
  obtain ⟨g1, run1, st1', h1, hch1, hpos1, htx1, hit1, hid1⟩ :=
    tspanRunStep env a1 s1 PAtext st1 x0 3 hx1 hy1 hdx1 hst1x hst1t hst1d
  obtain ⟨g2, run2, st2', h2, hch2, hpos2, htx2, hit2, hid2⟩ :=
    tspanRunStep env a2 s2 PAtext st1' (x0 + 0 + env.measureWidth run1) 3
      hx2 hy2 hdx2 htx1 hit1 hid1
  have hstep1 : parseChildStep (parseNodeFuel 4 env) env
      (.element "tspan" a1 [.textNode s1]) (some PAtext) st1
      = some (some g1, st1') := h1
  have hstep2 : parseChildStep (parseNodeFuel 4 env) env
      (.element "tspan" a2 [.textNode s2]) (some PAtext) st1'
      = some (some g2, st2') := h2
  have hkids : parseKids (parseNodeFuel 4 env) env
      (textDoc tA a1 a2 s1 s2).childrenList (some PAtext) st1
      = some ([g1, g2], st2') := by
    simp only [parseKids, textDoc, XMLNode.childrenList, List.foldl_cons, List.foldl_nil,
      hstep1, hstep2]
    rfl
  have hname : lowerStr (textDoc tA a1 a2 s1 s2).nodeName = "text" := rfl
  have hfull : parseNodeF env (textDoc tA a1 a2 s1 s2) (some pg) st
      = some (some { PAtext with children := PAtext.children ++ [g1, g2] },
          modeExit "text" st2') := by
    have h5 : parseNodeF env (textDoc tA a1 a2 s1 s2) (some pg) st
        = parseNodeFuel (4 + 1) env (textDoc tA a1 a2 s1 s2) (some pg) st := rfl
    rw [h5]
    rw [parseNodeFuel]
    simp only [hname, hmain0]
    rw [hkids]
    rfl
  refine ⟨_, g1, g2, run1, run2, _, hfull, ?_, hch1, hch2, ?_, ?_⟩
  · show PAtext.children ++ [g1, g2] = [g1, g2]
    rw [hPA, (parseAttributesPreserves _ _ _ _ _).2, (inheritStylePreserves _ _).2]
    rfl
  · simpa using hpos1
  · simpa using hpos2

/-- Witness for C5: a `text` element at `x="5"` with two attribute-less
`tspan` children holding the runs `"a"` and `"b"`: the first run lands at
`5` and the second at `5` plus the first run's measured width. -/
theorem textCursorAdvanceC5Witness :
    ∃ g g1 g2 run1 run2 stF,
      parseNodeF envDefault (textDoc [("x", "5")] [] [] "a" "b")
        (some (baseEl "group")) freshPState = some (some g, stF)
      ∧ g.children = [g1, g2]
      ∧ g1.children = [run1] ∧ g2.children = [run2]
      ∧ run1.position.1 = .n (.num 5)
      ∧ run2.position.1 = .n (.num (5 + envDefault.measureWidth run1)) :=
  textCursorAdvanceC5 envDefault [("x", "5")] [] [] "a" "b" (baseEl "group")
    freshPState 5 rfl (by decide) rfl rfl rfl rfl rfl rfl

/-- Counterexample to C5 as the spec states it (which constrains only the
`x`/`y` attributes of the `tspan` siblings): with `dx="5"` on the first
`tspan` (and the measuring environment returning width `7` for every
element), the first run lands at the string `"05"` — `0 + "5"` is JS
string concatenation — and the second run at `"0570"` (the cursor picks
up a spurious `"0"` from the second `tspan`'s `dx` default `0`), while
"first run's x plus the first run's measured width" is `"05" + 7 =
"057" ≠ "0570"`: the advance law fails once a `dx` attribute is
present. -/
theorem textCursorAdvanceC5Counterexample :
    ((parseNodeF envDefault (textDoc [] [("dx", "5")] [] "a" "b")
        (some (baseEl "group")) freshPState).map
      (fun p => p.1.map (fun g => g.children.map (fun c => c.children.map
        (fun t => t.position.1)))))
      = some (some [[.s "05"], [.s "0570"]])
    ∧ jsPlus envDefault.fmt (.s "05") (.n (.num 7)) = .s "057"
    ∧ JSVal.s "0570" ≠ JSVal.s "057" := by
  refine ⟨by decide, by decide, by decide⟩

end ParseSVG
